import Mathlib

/-!
# LTP server: retriever and caching handler

A shallow embedding of `src/src/retriver.go` and `src/src/server.go`.

Conventions of the embedding.

* A Go call either returns or stops with a run-time panic (`GoResult`).
* What the code does to its surroundings (requests handed to the HTTP client,
  calls on the response writer, loads and stores of the two cache cells, clock
  readings) is returned as an explicit log next to the result.
* What the surroundings answer (the client's response, the clock, the result of
  a write) is an explicit argument.
* Standard-library leaves whose algorithm is not part of this repository
  (`strconv.ParseFloat`, URL validation in `http.NewRequest`, the JSON encoders
  of a float and of a string) are arguments collected in `Lib`.
* A response body is given as its JSON syntax tree (`Body`), and
  `encoding/json`'s decoding of that tree into the repository's types is
  written out (`Unmarshal`).
-/

namespace LtpServer

/-! ## Go run-time results -/

/-- Result of running a Go call: it returns a value or stops with a run-time panic. -/
inductive GoResult (α : Type) where
  | returned (v : α)
  | panicked
  deriving Repr, DecidableEq

/-! ## `retriver.go`: constants and errors -/

/-- The official Kraken API endpoint. -/
def ApiUrl : String := "https://api.kraken.com"

/-- The constant `ApiVersion`. -/
def ApiVersion : String := "0"

/-- The constant `ApiUserAgent`. -/
def ApiUserAgent : String := "Kraken GO API Agent (https://github.com/jenyasd/ltp-server)"

/-- The sentinel errors of `retriver.go`. An error value of the code is
`errors.Join(sentinel, cause)`; the embedding keeps the sentinel, which is what
`errors.Is` tests, and drops the cause. -/
inductive RetrieverError where
  | ErrNoPairs
  | ErrCannotCreateReq
  | ErrRequest
  | ErrReadBody
  | ErrGetContentType
  | ErrBadContentType
  | ErrParseJsonBody
  | ErrKraken
  | ErrFloatPars
  deriving Repr, DecidableEq

/-! ## Data types -/

/-- A 64-bit float, given by its IEEE 754 bit pattern (taken modulo `2^64`). -/
structure Float64 where
  bits : Nat
  deriving Repr, DecidableEq

/-- The 11 exponent bits of the pattern. -/
def Float64.exponent (f : Float64) : Nat := (f.bits % 2 ^ 64) / 2 ^ 52 % 2 ^ 11

/-- The 52 fraction bits of the pattern. -/
def Float64.fraction (f : Float64) : Nat := f.bits % 2 ^ 52

/-- Go `math.IsNaN`. -/
def Float64.IsNaN (f : Float64) : Bool := f.exponent == 2047 && f.fraction != 0

/-- Go `math.IsInf(f, 0)`. -/
def Float64.IsInf (f : Float64) : Bool := f.exponent == 2047 && f.fraction == 0

/-- The struct `PriceInfo` of `server.go`. -/
structure PriceInfo where
  Pair : String
  Amount : Float64
  deriving Repr, DecidableEq

/-- The struct `PairTickerInfo`: the closing-price strings under the JSON key `c`. -/
structure PairTickerInfo where
  Close : List String
  deriving Repr, DecidableEq

/-- The type `TickerResponse`, a Go `map[string]*PairTickerInfo`, as an association
list read by `List.lookup` (the first binding of a key is the map's value for it).
A value `none` is a nil pointer stored under the key. -/
abbrev TickerResponse := List (String × Option PairTickerInfo)

/-- Standard-library leaves used by the code. -/
structure Lib where
  /-- The leaf `strconv.ParseFloat(s, 64)`: `none` when it returns an error. -/
  parseFloat : String → Option Float64
  /-- Whether `http.NewRequest` accepts the URL (its `url.Parse` succeeds). -/
  parseURL : String → Bool
  /-- JSON text of a finite float, as `encoding/json` writes it. -/
  formatFloat : Float64 → String
  /-- JSON string literal of a Go string, as `encoding/json` writes it. -/
  encodeString : String → String

/-! ## JSON syntax trees and `encoding/json` decoding -/

/-- A JSON value. Object members are kept in document order, repeated names included. -/
inductive JValue where
  | null
  | bool (b : Bool)
  | number (literal : String)
  | string (s : String)
  | array (items : List JValue)
  | object (members : List (String × JValue))

/-- A response body as `json.Unmarshal` sees it: bytes that are not valid JSON, or
the syntax tree of the document. -/
inductive Body where
  | invalid
  | json (v : JValue)

/-- Case folding of one character of a member name, as `encoding/json` folds names
before comparing them with a field name: ASCII letters go to upper case, and the
two non-ASCII runes whose simple case folding reaches an ASCII letter (U+017F and
U+212A) go to `S` and `K`. Against the ASCII field names of this repository this
decides the match exactly. -/
def foldChar (c : Char) : Char :=
  if 'a'.toNat ≤ c.toNat ∧ c.toNat ≤ 'z'.toNat then Char.ofNat (c.toNat - 32)
  else if c.toNat = 0x17F then 'S'
  else if c.toNat = 0x212A then 'K'
  else c

/-- Folded form of a member name. -/
def foldName (s : String) : String := String.mk (s.data.map foldChar)

/-- Whether the member name `key` selects the struct field tagged `field`:
an exact match, or a match after case folding. -/
def fieldMatches (field key : String) : Bool :=
  key == field || foldName key == foldName field

/-- A Go `[]string` under decoding: its elements, and the slots of its backing
array behind them (which a later decode into the same slice reuses). -/
structure StrSlice where
  elems : List String
  spare : List String
  deriving Repr, DecidableEq

/-- The nil slice. -/
def StrSlice.nil : StrSlice := ⟨[], []⟩

/-- Decoding the items of a JSON array into the slots of a string slice: a JSON
string is stored, a JSON null leaves the slot as it is (the empty string for a
fresh slot), anything else is an `UnmarshalTypeError` (`none`). -/
def decodeItems : List String → List JValue → Option (List String)
  | _, [] => some []
  | slots, item :: rest =>
    let stored : Option String :=
      match item with
      | JValue.string s => some s
      | JValue.null => some (slots.headD "")
      | _ => none
    match stored, decodeItems slots.tail rest with
    | some s, some more => some (s :: more)
    | _, _ => none

/-- Decoding a JSON value into a `[]string` field: null sets the slice to nil, an
array is decoded slot by slot and the slice is cut to the array's length (an empty
array gives a fresh empty slice), anything else is an `UnmarshalTypeError`. -/
def storeSlice (sl : StrSlice) (v : JValue) : Option StrSlice :=
  match v with
  | JValue.null => some StrSlice.nil
  | JValue.array items =>
    match decodeItems (sl.elems ++ sl.spare) items with
    | none => none
    | some new =>
      if items.length = 0 then some StrSlice.nil
      else some ⟨new, (sl.elems ++ sl.spare).drop items.length⟩
  | _ => none

/-- Decoding the members of a JSON object into a `PairTickerInfo`: a member whose
name matches `c` goes to `Close`, every other member is skipped. -/
def decodeTickerFields : List (String × JValue) → StrSlice → Option StrSlice
  | [], close => some close
  | (key, v) :: rest, close =>
    if fieldMatches "c" key then
      match storeSlice close v with
      | none => none
      | some close1 => decodeTickerFields rest close1
    else decodeTickerFields rest close

/-- Decoding a JSON value into a fresh map element of type `*PairTickerInfo`: null
leaves the nil pointer, an object allocates a record and fills it, anything else is
an `UnmarshalTypeError`. -/
def decodeTicker (v : JValue) : Option (Option PairTickerInfo) :=
  match v with
  | JValue.null => some none
  | JValue.object members =>
    match decodeTickerFields members StrSlice.nil with
    | none => none
    | some close => some (some ⟨close.elems⟩)
  | _ => none

/-- Decoding the members of a JSON object into the `TickerResponse` map: each member
is decoded into a fresh element and stored under its name, over what the map held. -/
def decodeTickerMap : List (String × JValue) → TickerResponse → Option TickerResponse
  | [], m => some m
  | (key, v) :: rest, m =>
    match decodeTicker v with
    | none => none
    | some elem => decodeTickerMap rest ((key, elem) :: m)

/-- The struct `KrakenResponse` while `json.Unmarshal` fills it. `Result` is an
`interface{}`: `bound` says that it still holds the pointer `typ` the caller put
there, and `target` is the map behind that pointer. -/
structure KrakenResponse where
  Error : StrSlice
  bound : Bool
  target : TickerResponse
  deriving Repr, DecidableEq

/-- Decoding a JSON value into the field `Result`. While the field holds the
caller's pointer, an object is decoded into the map behind it, a null sets the
field to the nil interface (the map is left alone), and anything else is an
`UnmarshalTypeError`. Once the field is the nil interface every value is accepted
and stored as a generic value, away from the map. -/
def storeResult (kr : KrakenResponse) (v : JValue) : Option KrakenResponse :=
  if kr.bound then
    match v with
    | JValue.null => some { kr with bound := false }
    | JValue.object members =>
      match decodeTickerMap members kr.target with
      | none => none
      | some m => some { kr with target := m }
    | _ => none
  else some kr

/-- Decoding the members of the envelope object into `KrakenResponse`, in document
order: names matching `error` and `result` select the two fields, other members
are skipped. -/
def decodeEnvelope : List (String × JValue) → KrakenResponse → Option KrakenResponse
  | [], kr => some kr
  | (key, v) :: rest, kr =>
    if fieldMatches "error" key then
      match storeSlice kr.Error v with
      | none => none
      | some errs => decodeEnvelope rest { kr with Error := errs }
    else if fieldMatches "result" key then
      match storeResult kr v with
      | none => none
      | some kr1 => decodeEnvelope rest kr1
    else decodeEnvelope rest kr

/-- The call `json.Unmarshal(body, &krakenResponse)`: `none` when it returns an
error (a syntax error, or an `UnmarshalTypeError` saved while decoding). A
top-level null is accepted and changes nothing. -/
def Unmarshal (body : Body) (kr : KrakenResponse) : Option KrakenResponse :=
  match body with
  | Body.invalid => none
  | Body.json JValue.null => some kr
  | Body.json (JValue.object members) => decodeEnvelope members kr
  | Body.json _ => none

/-! ## URL query encoding (`net/url`) -/

/-- Go `url.shouldEscape(c, encodeQueryComponent)`: only ASCII letters, digits and
the marks `-`, `_`, `.`, `~` are left as they are. -/
def shouldEscape (c : Nat) : Bool :=
  if ('a'.toNat ≤ c ∧ c ≤ 'z'.toNat) ∨ ('A'.toNat ≤ c ∧ c ≤ 'Z'.toNat) ∨
      ('0'.toNat ≤ c ∧ c ≤ '9'.toNat) then false
  else if c = '-'.toNat ∨ c = '_'.toNat ∨ c = '.'.toNat ∨ c = '~'.toNat then false
  else true

/-- The digit of `0123456789ABCDEF` at a position below 16. -/
def upperhex (n : Nat) : Char :=
  if n < 10 then Char.ofNat ('0'.toNat + n) else Char.ofNat ('A'.toNat + (n - 10))

/-- Escaping of one byte in a query component: a space becomes `+`, a byte that
must be escaped becomes `%XX`. -/
def escapeByte (c : Nat) : List Char :=
  if c = ' '.toNat then ['+']
  else if shouldEscape c then ['%', upperhex (c / 16), upperhex (c % 16)]
  else [Char.ofNat c]

/-- Go `url.QueryEscape`, over the UTF-8 bytes of the string. -/
def QueryEscape (s : String) : String :=
  String.mk ((s.data.flatMap String.utf8EncodeChar).flatMap (fun b => escapeByte b.toNat))

/-- Go `url.Values`, a `map[string][]string`, as an association list with one
entry per key. -/
abbrev Values := List (String × List String)

/-- Go `Values.Add`: appends the value to the list of values of the key. -/
def Values.Add : Values → String → String → Values
  | [], key, value => [(key, [value])]
  | (k, vs) :: rest, key, value =>
    if k = key then (k, vs ++ [value]) :: rest
    else (k, vs) :: Values.Add rest key value

/-- Insertion of an entry into a list of entries sorted by key. -/
def Values.insertSorted (e : String × List String) : Values → Values
  | [] => [e]
  | x :: rest => if e.1 < x.1 then e :: x :: rest else x :: Values.insertSorted e rest

/-- The entries sorted by key. -/
def Values.sorted : Values → Values
  | [] => []
  | e :: rest => Values.insertSorted e (Values.sorted rest)

/-- Go `Values.Encode`: `key=value` pieces, keys sorted, joined by `&`, both sides
query-escaped. -/
def Values.Encode (v : Values) : String :=
  String.intercalate "&"
    ((Values.sorted v).flatMap
      (fun e => e.2.map (fun value => QueryEscape e.1 ++ "=" ++ QueryEscape value)))

/-! ## HTTP exchange -/

/-- An outbound request: what `http.NewRequest` built and what was added to its header. -/
structure Request where
  method : String
  url : String
  header : List (String × String)
  deriving Repr, DecidableEq

/-- What the code reads from an `http.Response`: the outcome of
`io.ReadAll(resp.Body)` (`none` for a read error) and the outcome of
`mime.ParseMediaType` on the `Content-Type` header (`none` for an error,
otherwise the media type). -/
structure Response where
  body : Option Body
  mediaType : Option String

/-- Outcome of `client.Do(req)`. -/
inductive DoResult where
  | failed
  | response (resp : Response)

/-- A non-nil `*http.Client`, as the function from the request it is given to the
outcome of `Do`. -/
abbrev Client := Request → DoResult

/-- The struct `PriceRequester`. A nil `client` is `none`. -/
structure PriceRequester where
  apiUrl : String
  apiVersion : String
  client : Option Client

/-- The constructor `NewPriceRequester`. -/
def NewPriceRequester (url version : String) (client : Option Client) : PriceRequester :=
  { apiUrl := url, apiVersion := version, client := client }

/-- The constructor `DefaultPriceRequester`, for the client `&http.Client{}`. -/
def DefaultPriceRequester (client : Client) : PriceRequester :=
  NewPriceRequester ApiUrl ApiVersion (some client)

/-- Go `http.MethodGet`. -/
def MethodGet : String := "GET"

/-- Go `http.NewRequest(method, url, nil)`: `none` when the URL is refused. -/
def NewRequest (lib : Lib) (method url : String) : Option Request :=
  if lib.parseURL url then some { method := method, url := url, header := [] } else none

/-- What a call of the retriever did and how it ended: the requests handed to
`client.Do`, in order, and the result. -/
structure Run (α : Type) where
  sent : List Request
  result : GoResult α

/-- The method `doApiRequest`. `typ` is the map behind the pointer passed as `typ`
(`none` for a nil `typ`); the result is the returned error, or on success the
map as the call left it. A nil client panics inside `Do`. -/
def doApiRequest (pr : PriceRequester) (req : Request) (headers : List (String × String))
    (typ : Option TickerResponse) : Run (Except RetrieverError (Option TickerResponse)) :=
  let req1 : Request :=
    { req with header := (req.header ++ [("User-Agent", ApiUserAgent)]) ++ headers }
  match pr.client with
  | none => ⟨[], GoResult.panicked⟩
  | some client =>
    -- Execute request
    match client req1 with
    | DoResult.failed => ⟨[req1], GoResult.returned (Except.error RetrieverError.ErrRequest)⟩
    | DoResult.response resp =>
      -- Read request
      match resp.body with
      | none => ⟨[req1], GoResult.returned (Except.error RetrieverError.ErrReadBody)⟩
      | some body =>
        -- Check mime type of response
        match resp.mediaType with
        | none => ⟨[req1], GoResult.returned (Except.error RetrieverError.ErrGetContentType)⟩
        | some mimeType =>
          if mimeType ≠ "application/json" then
            ⟨[req1], GoResult.returned (Except.error RetrieverError.ErrBadContentType)⟩
          else
            let krakenResponse : KrakenResponse :=
              { Error := StrSlice.nil, bound := typ.isSome, target := typ.getD [] }
            match Unmarshal body krakenResponse with
            | none => ⟨[req1], GoResult.returned (Except.error RetrieverError.ErrParseJsonBody)⟩
            | some kr =>
              if kr.Error.elems.length > 0 then
                ⟨[req1], GoResult.returned (Except.error RetrieverError.ErrKraken)⟩
              else
                ⟨[req1], GoResult.returned (Except.ok (typ.map (fun _ => kr.target)))⟩

/-- The method `queryGet`. -/
def queryGet (lib : Lib) (pr : PriceRequester) (reqPath : String) (values : Values)
    (typ : Option TickerResponse) : Run (Except RetrieverError (Option TickerResponse)) :=
  let reqUrl := pr.apiUrl ++ "/" ++ ApiVersion ++ "/public/" ++ reqPath
  let encodedValues := values.Encode
  let fullURL := reqUrl ++ "?" ++ encodedValues
  match NewRequest lib MethodGet fullURL with
  | none => ⟨[], GoResult.returned (Except.error RetrieverError.ErrCannotCreateReq)⟩
  | some req => doApiRequest pr req [] typ

/-- The loop of `GetLtp` over the requested pairs, `priceInfos` being the slice
built so far. Reading `Close` through a nil record is a nil-pointer dereference. The
result is the pair `(prices, error)` that `GetLtp` returns. -/
def GetLtp.loop (lib : Lib) (tickerResp : TickerResponse) :
    List String → List PriceInfo → GoResult (List PriceInfo × Option RetrieverError)
  | [], priceInfos => GoResult.returned (priceInfos, none)
  | curr :: rest, priceInfos =>
    match tickerResp.lookup curr with
    | none => GetLtp.loop lib tickerResp rest priceInfos
    | some none => GoResult.panicked
    | some (some tickerData) =>
      match tickerData.Close with
      | [] => GetLtp.loop lib tickerResp rest priceInfos
      | close0 :: _ =>
        match lib.parseFloat close0 with
        | none => GoResult.returned ([], some RetrieverError.ErrFloatPars)
        | some lastTradedPrice =>
          GetLtp.loop lib tickerResp rest
            (priceInfos ++ [{ Pair := curr, Amount := lastTradedPrice }])

/-- The method `GetLtp`. -/
def GetLtp (lib : Lib) (pr : PriceRequester) (pairs : List String) :
    Run (List PriceInfo × Option RetrieverError) :=
  if pairs.length = 0 then ⟨[], GoResult.returned ([], some RetrieverError.ErrNoPairs)⟩
  else
    let tickerResp : TickerResponse := []
    let params : Values := Values.Add [] "pair" (String.intercalate "," pairs)
    let q := queryGet lib pr "Ticker" params (some tickerResp)
    match q.result with
    | GoResult.panicked => ⟨q.sent, GoResult.panicked⟩
    | GoResult.returned (Except.error err) => ⟨q.sent, GoResult.returned ([], some err)⟩
    | GoResult.returned (Except.ok typ) => ⟨q.sent, GetLtp.loop lib (typ.getD []) pairs []⟩

/-! ## `server.go` -/

/-- The constant `BtcUsdPair`. -/
def BtcUsdPair : String := "BTC/USD"

/-- The constant `BtcEurPair`. -/
def BtcEurPair : String := "BTC/EUR"

/-- The constant `BtcChfPair`. -/
def BtcChfPair : String := "BTC/CHF"

/-- The message `ErrBadLtpMethod`. -/
def ErrBadLtpMethod : String := "bad method to get ltp"

/-- The message `ErrGetLtp`. -/
def ErrGetLtp : String := "error getting ltp"

/-- The message `ErrMarshalJsonLtp`. -/
def ErrMarshalJsonLtp : String := "error marshal json"

/-- The message `ErrWriteResponse`. -/
def ErrWriteResponse : String := "error write response"

/-- Go `http.StatusOK`. -/
def StatusOK : Nat := 200

/-- Go `http.StatusBadRequest`. -/
def StatusBadRequest : Nat := 400

/-- Go `http.StatusInternalServerError`. -/
def StatusInternalServerError : Nat := 500

/-- The struct `LtpResponse`. -/
structure LtpResponse where
  Ltp : List PriceInfo
  deriving Repr, DecidableEq

/-- JSON object of one `PriceInfo`, with the keys of its field tags. -/
def marshalPriceInfo (lib : Lib) (p : PriceInfo) : String :=
  "\x7b\"pair\":" ++ lib.encodeString p.Pair ++ ",\"amount\":" ++ lib.formatFloat p.Amount ++ "\x7d"

/-- The call `json.Marshal(&resp)` on an `LtpResponse` whose slice is not nil: it
fails (`none`) exactly when an amount is NaN or infinite, and otherwise gives the
object with the one key `ltp` and the array of the prices in slice order. -/
def Marshal (lib : Lib) (resp : LtpResponse) : Option String :=
  if resp.Ltp.any (fun p => p.Amount.IsNaN || p.Amount.IsInf) then none
  else some ("\x7b\"ltp\":[" ++ String.intercalate "," (resp.Ltp.map (marshalPriceInfo lib)) ++ "]\x7d")

/-- A reading of the monotonic clock by `time.Now()`, in nanoseconds. -/
abbrev Time := Int

/-- A Go `time.Duration`, in nanoseconds. -/
abbrev Duration := Int

/-- The largest `time.Duration`. -/
def maxDuration : Duration := 2 ^ 63 - 1

/-- The smallest `time.Duration`. -/
def minDuration : Duration := -(2 ^ 63)

/-- Go `t.Sub(u)` on two readings of the monotonic clock: the difference, held to
the range of `time.Duration`. -/
def Sub (t u : Time) : Duration :=
  if t - u > maxDuration then maxDuration
  else if t - u < minDuration then minDuration
  else t - u

/-- Go `time.Minute`. -/
def Minute : Duration := 60 * 1000000000

/-- The struct `Server`: the address, the TTL `cachedTime`, and the two atomic
pointers (`none` is the nil pointer). The field `PriceGetter` is an interface value
whose answers may change between requests; its answer to a request is part of that
request's surroundings (`Env.getter`). -/
structure Server where
  Addr : String
  cachedTime : Duration
  lastCached : Option Time
  cachedResponse : Option String
  deriving Repr, DecidableEq

/-- The constructor `NewServer`. -/
def NewServer (addr : String) : Server :=
  { Addr := addr, cachedTime := Minute, lastCached := none, cachedResponse := none }

/-- An answer of the interface method `PriceGetter.GetLtp`: the returned pair of
prices and error (`none` is the nil error), or a panic. -/
abbrev GetterAnswer := GoResult (List PriceInfo × Option String)

/-- What the handler reads of the inbound request. -/
structure HttpRequest where
  Method : String
  deriving Repr, DecidableEq

/-- The surroundings of one handled request: the clock reading of the freshness
test, the price getter (from the pairs it is called with to its answer), the clock
reading taken when the new entry is stored, and whether `w.Write` succeeds. -/
structure Env where
  nowCheck : Time
  getter : List String → GetterAnswer
  nowStore : Time
  writeOk : Bool

/-- One action of the handler on its surroundings; `write` carries whether the
write succeeded. The line printed on standard output at the start of the handler
is left out. -/
inductive Effect where
  | headerSet (key value : String)
  | httpError (message : String) (code : Nat)
  | write (data : String) (ok : Bool)
  | loadLastCached
  | loadCachedResponse
  | storeCachedResponse (data : String)
  | storeLastCached (t : Time)
  | timeNow
  | getLtp (pairs : List String)
  deriving Repr, DecidableEq

/-- Outcome of one handled request: the server afterwards, the actions in order,
and whether the handler stopped with a panic. -/
structure Handled where
  server : Server
  log : List Effect
  panicked : Bool

/-- The freshness test `s.lastCached.Load() != nil &&
time.Now().Sub(*s.lastCached.Load()) < s.cachedTime`, with the actions it performs:
the clock is read only when the first load is not nil. -/
def isFresh (s : Server) (env : Env) : Bool × List Effect :=
  match s.lastCached with
  | none => (false, [Effect.loadLastCached])
  | some t =>
    (decide (Sub env.nowCheck t < s.cachedTime),
      [Effect.loadLastCached, Effect.timeNow, Effect.loadLastCached])

/-- The tail shared by both paths: `w.Write(data)`, and `http.Error` when it fails. -/
def writeResponse (env : Env) (data : String) : List Effect :=
  if env.writeOk then [Effect.write data true]
  else [Effect.write data false, Effect.httpError ErrWriteResponse StatusInternalServerError]

/-- The method `handlePriceRequest`, run on its own from start to end. -/
def handlePriceRequest (lib : Lib) (s : Server) (r : HttpRequest) (env : Env) : Handled :=
  -- check method
  if r.Method ≠ MethodGet then
    ⟨s, [Effect.httpError ErrBadLtpMethod StatusBadRequest], false⟩
  else
    let log0 := [Effect.headerSet "Content-Type" "application/json"] ++ (isFresh s env).2
    -- if the last cached resp in not aged return it
    if (isFresh s env).1 then
      match s.cachedResponse with
      | none => ⟨s, log0 ++ [Effect.loadCachedResponse], true⟩
      | some cached => ⟨s, log0 ++ [Effect.loadCachedResponse] ++ writeResponse env cached, false⟩
    else
      -- retrieve prices from Kraken
      let pairs := [BtcChfPair, BtcUsdPair, BtcEurPair]
      let log1 := log0 ++ [Effect.getLtp pairs]
      match env.getter pairs with
      | GoResult.panicked => ⟨s, log1, true⟩
      | GoResult.returned (_, some _) =>
        ⟨s, log1 ++ [Effect.httpError ErrGetLtp StatusInternalServerError], false⟩
      | GoResult.returned (res, none) =>
        -- Create a response
        let resp : LtpResponse := { Ltp := res }
        -- Marshal the response
        match Marshal lib resp with
        | none => ⟨s, log1 ++ [Effect.httpError ErrMarshalJsonLtp StatusInternalServerError], false⟩
        | some bResp =>
          -- Cache the response
          let s1 := { s with cachedResponse := some bResp }
          let now := env.nowStore
          let s2 := { s1 with lastCached := some now }
          -- Write the response
          ⟨s2, log1 ++ [Effect.storeCachedResponse bResp, Effect.timeNow,
              Effect.storeLastCached now] ++ writeResponse env bResp, false⟩

/-! ## Reading a handler's log -/

/-- The pairs of every `GetLtp` call of a log, in order. -/
def upstreamCalls : List Effect → List (List String)
  | [] => []
  | Effect.getLtp pairs :: rest => pairs :: upstreamCalls rest
  | _ :: rest => upstreamCalls rest

/-- Whether the action is a load or a store of one of the two cache cells. -/
def Effect.isCacheAccess : Effect → Bool
  | Effect.loadLastCached => true
  | Effect.loadCachedResponse => true
  | Effect.storeCachedResponse _ => true
  | Effect.storeLastCached _ => true
  | _ => false

/-- Whether the action is a call of `http.Error`. -/
def Effect.isHttpError : Effect → Bool
  | Effect.httpError _ _ => true
  | _ => false

/-- Whether the action writes to the client: `w.Write` or `http.Error`. -/
def Effect.isOutput : Effect → Bool
  | Effect.write _ _ => true
  | Effect.httpError _ _ => true
  | _ => false

/-- An answer as the client gets it: status code and body. -/
structure Answer where
  status : Nat
  body : String
  deriving Repr, DecidableEq

/-- The answer a log amounts to, when it has one of the two plain shapes: a single
successful `w.Write(data)` with no `WriteHeader` before it is status 200 with body
`data`; a single `http.Error(w, message, code)` is status `code` with the message as
the text of the body (`http.Error` sends it as one line). A log with a failed write,
or with no output, has neither shape. -/
def answer (log : List Effect) : Option Answer :=
  match log.filter Effect.isOutput with
  | [Effect.write data true] => some ⟨StatusOK, data⟩
  | [Effect.httpError message code] => some ⟨code, message⟩
  | _ => none

/-- Whether the handler answered through `http.Error`. -/
def answersError (log : List Effect) : Bool := log.any Effect.isHttpError

/-! ## Handlers running concurrently

Each load and each store of an atomic pointer is one step of a handler; a
schedule says which handler takes the next step. Every stored value carries the
number of the handler that stored it, so that a reader can tell which publish a
value came from; these numbers play no part in what the handlers do. -/

/-- The two atomic pointers, each value with the number of the handler that stored it. -/
structure Shared where
  lastCached : Option (Time × Nat)
  cachedResponse : Option (String × Nat)
  deriving Repr, DecidableEq

/-- Where a handler stands in `handlePriceRequest`. -/
inductive Pc where
  /-- Before the method check. -/
  | checkMethod
  /-- Before the first `s.lastCached.Load()` of the freshness test. -/
  | loadNil
  /-- Before `time.Now()` of the freshness test. -/
  | readClock
  /-- Before the second `s.lastCached.Load()` and the comparison. -/
  | loadTime (now : Time)
  /-- Before `s.cachedResponse.Load()` and the write of the cached bytes. -/
  | loadPayload
  /-- Before the call of `GetLtp` and the marshalling. -/
  | fetch
  /-- Before `s.cachedResponse.Store(&bResp)`. -/
  | storePayload (bResp : String)
  /-- Before `now := time.Now()`. -/
  | readClockStore (bResp : String)
  /-- Before `s.lastCached.Store(&now)`. -/
  | storeTime (bResp : String) (now : Time)
  /-- Before the write of the fresh bytes. -/
  | respond (bResp : String)
  /-- Returned. -/
  | done
  /-- Stopped with a panic. -/
  | panicked
  deriving Repr, DecidableEq

/-- A handler in flight: where it stands, what it did so far, and what it read from
the cache on the hit path — the timestamp its freshness test used and the bytes it
served, each with the number of the handler that stored it. -/
structure Local where
  pc : Pc
  log : List Effect
  seenTime : Option (Time × Nat)
  seenPayload : Option (String × Nat)
  deriving Repr, DecidableEq

/-- A handler that has not started. -/
def Local.start : Local := ⟨Pc.checkMethod, [], none, none⟩

/-- A request being handled, with its surroundings. -/
structure Task where
  request : HttpRequest
  env : Env

/-- One step of handler number `id`. -/
def step (lib : Lib) (ttl : Duration) (id : Nat) (task : Task) (sh : Shared) (l : Local) :
    Shared × Local :=
  match l.pc with
  | Pc.checkMethod =>
    if task.request.Method ≠ MethodGet then
      (sh, { l with pc := Pc.done,
                    log := l.log ++ [Effect.httpError ErrBadLtpMethod StatusBadRequest] })
    else
      (sh, { l with pc := Pc.loadNil,
                    log := l.log ++ [Effect.headerSet "Content-Type" "application/json"] })
  | Pc.loadNil =>
    match sh.lastCached with
    | none => (sh, { l with pc := Pc.fetch, log := l.log ++ [Effect.loadLastCached] })
    | some _ => (sh, { l with pc := Pc.readClock, log := l.log ++ [Effect.loadLastCached] })
  | Pc.readClock =>
    (sh, { l with pc := Pc.loadTime task.env.nowCheck, log := l.log ++ [Effect.timeNow] })
  | Pc.loadTime now =>
    match sh.lastCached with
    | none => (sh, { l with pc := Pc.panicked, log := l.log ++ [Effect.loadLastCached] })
    | some (t, k) =>
      if Sub now t < ttl then
        (sh, { l with pc := Pc.loadPayload, log := l.log ++ [Effect.loadLastCached],
                      seenTime := some (t, k) })
      else (sh, { l with pc := Pc.fetch, log := l.log ++ [Effect.loadLastCached] })
  | Pc.loadPayload =>
    match sh.cachedResponse with
    | none => (sh, { l with pc := Pc.panicked, log := l.log ++ [Effect.loadCachedResponse] })
    | some (cached, k) =>
      (sh, { l with pc := Pc.done,
                    log := l.log ++ [Effect.loadCachedResponse] ++ writeResponse task.env cached,
                    seenPayload := some (cached, k) })
  | Pc.fetch =>
    let pairs := [BtcChfPair, BtcUsdPair, BtcEurPair]
    let log1 := l.log ++ [Effect.getLtp pairs]
    match task.env.getter pairs with
    | GoResult.panicked => (sh, { l with pc := Pc.panicked, log := log1 })
    | GoResult.returned (_, some _) =>
      (sh, { l with pc := Pc.done,
                    log := log1 ++ [Effect.httpError ErrGetLtp StatusInternalServerError] })
    | GoResult.returned (res, none) =>
      match Marshal lib { Ltp := res } with
      | none =>
        (sh, { l with pc := Pc.done,
                      log := log1 ++ [Effect.httpError ErrMarshalJsonLtp StatusInternalServerError] })
      | some bResp => (sh, { l with pc := Pc.storePayload bResp, log := log1 })
  | Pc.storePayload bResp =>
    ({ sh with cachedResponse := some (bResp, id) },
      { l with pc := Pc.readClockStore bResp, log := l.log ++ [Effect.storeCachedResponse bResp] })
  | Pc.readClockStore bResp =>
    (sh, { l with pc := Pc.storeTime bResp task.env.nowStore, log := l.log ++ [Effect.timeNow] })
  | Pc.storeTime bResp now =>
    ({ sh with lastCached := some (now, id) },
      { l with pc := Pc.respond bResp, log := l.log ++ [Effect.storeLastCached now] })
  | Pc.respond bResp =>
    (sh, { l with pc := Pc.done, log := l.log ++ writeResponse task.env bResp })
  | Pc.done => (sh, l)
  | Pc.panicked => (sh, l)

/-- The cache cells and every handler in flight. -/
structure Config where
  shared : Shared
  locals : Nat → Local

/-- The start: a cold cache and no handler started. -/
def Config.cold : Config := ⟨⟨none, none⟩, fun _ => Local.start⟩

/-- Handler `i` takes one step. -/
def Config.stepAt (lib : Lib) (ttl : Duration) (tasks : Nat → Task) (c : Config) (i : Nat) :
    Config :=
  ⟨(step lib ttl i (tasks i) c.shared (c.locals i)).1,
    Function.update c.locals i (step lib ttl i (tasks i) c.shared (c.locals i)).2⟩

/-- The handlers step as the schedule says. -/
def Config.run (lib : Lib) (ttl : Duration) (tasks : Nat → Task) (c : Config)
    (schedule : List Nat) : Config :=
  schedule.foldl (Config.stepAt lib ttl tasks) c

/-- The longest path through the handler takes nine steps. -/
def handlerSteps : Nat := 9

/-- The schedule in which the handlers of `order` run one after the other, each
from its start to its end. -/
def serialSchedule (order : List Nat) : List Nat :=
  order.flatMap (fun i => List.replicate handlerSteps i)

/-- A handler observed a torn entry: on the hit path it used a timestamp stored by
one publish and served bytes stored by another. -/
def Local.torn (l : Local) : Bool :=
  match l.seenTime, l.seenPayload with
  | some (_, i), some (_, j) => i != j
  | _, _ => false

/-- The cache holds a torn entry: bytes of one publish next to the timestamp of another. -/
def Shared.torn (sh : Shared) : Bool :=
  match sh.lastCached, sh.cachedResponse with
  | some (_, i), some (_, j) => i != j
  | _, _ => false

/-! ## Library leaves on a table

For the evaluations at concrete inputs the leaves of `Lib` are given on the few
strings and numbers those inputs use. -/

/-- The float 3000.3. -/
def f3000_3 : Float64 := ⟨0x40A770999999999A⟩

/-- The float 50000. -/
def f50000 : Float64 := ⟨0x40E86A0000000000⟩

/-- The float 60000. -/
def f60000 : Float64 := ⟨0x40ED4C0000000000⟩

/-- The quiet NaN that `strconv.ParseFloat` and `math.NaN` return. -/
def fNaN : Float64 := ⟨0x7FF8000000000001⟩

/-- The leaves on their table: `parseFloat` on the literals `3000.3`, `50000`,
`60000` and `NaN` (every other string of the evaluations below is one that
`strconv.ParseFloat` refuses); every URL of the evaluations is one `url.Parse`
accepts; `formatFloat` on 3000.3, 50000 and 60000; `encodeString` on strings with
nothing to escape, which are written between double quotes. -/
def tableLib : Lib where
  parseFloat := fun s =>
    if s = "3000.3" then some f3000_3
    else if s = "50000" then some f50000
    else if s = "60000" then some f60000
    else if s = "NaN" then some fNaN
    else none
  parseURL := fun _ => true
  formatFloat := fun f =>
    if f = f3000_3 then "3000.3"
    else if f = f50000 then "50000"
    else if f = f60000 then "60000"
    else ""
  encodeString := fun s => "\"" ++ s ++ "\""

/-! ## Notions used in the statements on the retriever -/

/-- The first closing-price string that the loop of `GetLtp` reads for a pair: the
pair is bound to a record whose `Close` is not empty. -/
def firstClose (tickerResp : TickerResponse) (pair : String) : Option String :=
  match tickerResp.lookup pair with
  | some (some tickerData) => tickerData.Close.head?
  | _ => none

/-- The price kept for a pair: the parsed first closing-price string, when the pair
has one and it parses. -/
def keptPrice (lib : Lib) (tickerResp : TickerResponse) (pair : String) : Option PriceInfo :=
  match firstClose tickerResp pair with
  | none => none
  | some close0 =>
    match lib.parseFloat close0 with
    | none => none
    | some amount => some { Pair := pair, Amount := amount }

/-- No requested pair is bound to a nil record. -/
def NoNilRecord (tickerResp : TickerResponse) (pairs : List String) : Prop :=
  ∀ pair ∈ pairs, tickerResp.lookup pair ≠ some none

/-- A client that answers every request with the same response. -/
def Client.always (resp : Response) : Client := fun _ => DoResult.response resp

/-- A response with the JSON media type whose body is the given document. -/
def jsonResponse (v : JValue) : Response :=
  { body := some (Body.json v), mediaType := some "application/json" }

/-- The URL that `queryGet` builds for the ticker query of the pairs. -/
def tickerURL (pr : PriceRequester) (pairs : List String) : String :=
  pr.apiUrl ++ "/" ++ ApiVersion ++ "/public/Ticker" ++ "?" ++
    (Values.Add [] "pair" (String.intercalate "," pairs)).Encode

/-- The request that `GetLtp` hands to the client. -/
def tickerRequest (pr : PriceRequester) (pairs : List String) : Request :=
  { method := MethodGet, url := tickerURL pr pairs, header := [("User-Agent", ApiUserAgent)] }

/-- The empty `KrakenResponse` whose `Result` holds the pointer to the empty map of
`GetLtp`. -/
def KrakenResponse.fresh : KrakenResponse :=
  { Error := StrSlice.nil, bound := true, target := [] }

/-! ## Concrete upstream documents -/

/-- The document `{"error":[],"result":{"BTC/USD":{"c":["3000.3"]},"BTC/EUR":null}}`. -/
def docPriceThenNull : JValue :=
  JValue.object [("error", JValue.array []),
    ("result", JValue.object [
      ("BTC/USD", JValue.object [("c", JValue.array [JValue.string "3000.3"])]),
      ("BTC/EUR", JValue.null)])]

/-- The document `{"error":[],"result":{"BTC/CHF":null,"BTC/USD":{"c":["abc"]}}}`. -/
def docNullThenBadFloat : JValue :=
  JValue.object [("error", JValue.array []),
    ("result", JValue.object [
      ("BTC/CHF", JValue.null),
      ("BTC/USD", JValue.object [("c", JValue.array [JValue.string "abc"])])])]

/-- The document `{"error":[],"result":{"BTC/USD":null}}`. -/
def docNullRecord : JValue :=
  JValue.object [("error", JValue.array []),
    ("result", JValue.object [("BTC/USD", JValue.null)])]

/-- The document `{"error":[],"result":{"BTC/USD":{"c":["3000.3"]}}}`. -/
def docOnePrice : JValue :=
  JValue.object [("error", JValue.array []),
    ("result", JValue.object [
      ("BTC/USD", JValue.object [("c", JValue.array [JValue.string "3000.3"])])])]

/-- The document `{"error":["EGeneral:Internal error"],"result":[]}`. -/
def docErrorWithArrayResult : JValue :=
  JValue.object [("error", JValue.array [JValue.string "EGeneral:Internal error"]),
    ("result", JValue.array [])]

/-- The document
`{"error":["EQuery:Unknown asset pair"],"result":{"BTC/USD":{"c":["3000.3"]}}}`. -/
def docErrorWithPrices : JValue :=
  JValue.object [("error", JValue.array [JValue.string "EQuery:Unknown asset pair"]),
    ("result", JValue.object [
      ("BTC/USD", JValue.object [("c", JValue.array [JValue.string "3000.3"])])])]

/-- The requester of `DefaultPriceRequester`, its client answering every request
with the given JSON document. -/
def requesterAnswering (doc : JValue) : PriceRequester :=
  DefaultPriceRequester (Client.always (jsonResponse doc))

/-! ## Notions used in the statements on the handler -/

/-- Server states met in operation: a server built by `NewServer` (its TTL possibly set
before serving, as the tests do), then any number of handled requests. -/
inductive Reachable (lib : Lib) : Server → Prop where
  | new (addr : String) (ttl : Duration) :
    Reachable lib { NewServer addr with cachedTime := ttl }
  | handled (s : Server) (r : HttpRequest) (env : Env) :
    Reachable lib s → Reachable lib (handlePriceRequest lib s r env).server

/-- Whether the action is a call of `w.Write`. -/
def Effect.isWrite : Effect → Bool
  | Effect.write _ _ => true
  | _ => false

/-- The server with a new entry in its cache: both cells replaced. -/
def Server.stored (s : Server) (bResp : String) (now : Time) : Server :=
  { s with cachedResponse := some bResp, lastCached := some now }

/-- The three pairs the handler asks for, in the order of the call. -/
def fixedPairs : List String := [BtcChfPair, BtcUsdPair, BtcEurPair]

/-! ## Concrete servers and surroundings -/

/-- A price getter that returns the one price of `BTC/USD` with the given amount. -/
def getterOf (amount : Float64) : List String → GetterAnswer :=
  fun _ => GoResult.returned ([{ Pair := BtcUsdPair, Amount := amount }], none)

/-- A price getter that returns an error. -/
def getterFailing : List String → GetterAnswer :=
  fun _ => GoResult.returned ([], some "some error")

/-- The bytes `{"ltp":[{"pair":"BTC/USD","amount":50000}]}`. -/
def payload50000 : String := "\x7b\"ltp\":[\x7b\"pair\":\"BTC/USD\",\"amount\":50000\x7d]\x7d"

/-- The bytes `{"ltp":[{"pair":"BTC/USD","amount":60000}]}`. -/
def payload60000 : String := "\x7b\"ltp\":[\x7b\"pair\":\"BTC/USD\",\"amount\":60000\x7d]\x7d"

/-- The request `GET /api/v1/ltp`. -/
def getRequest : HttpRequest := { Method := "GET" }

/-- The request `POST /api/v1/ltp`. -/
def postRequest : HttpRequest := { Method := "POST" }

/-- The server after one successful fetch of the price 50000 on a new server, the
entry stored at clock reading 5. -/
def serverAfterFetch : Server :=
  (handlePriceRequest tableLib (NewServer ":8080") getRequest
    { nowCheck := 0, getter := getterOf f50000, nowStore := 5, writeOk := true }).server

/-! ## Notions used in the statements on concurrent handlers -/

/-- A step of one handler, on the pair of the cache cells and the handler. -/
def stepPair (lib : Lib) (ttl : Duration) (id : Nat) (task : Task) (p : Shared × Local) :
    Shared × Local :=
  step lib ttl id task p.1 p.2

/-- The cache holds a whole entry or none: both cells are empty, or both were stored
by the same handler. -/
def Shared.whole (sh : Shared) : Prop :=
  (sh.lastCached = none ∧ sh.cachedResponse = none) ∨
    ∃ t b k, sh.lastCached = some (t, k) ∧ sh.cachedResponse = some (b, k)

/-- A handler that has not started, or has ended without having observed a torn entry. -/
def Local.settled (l : Local) : Prop :=
  l = Local.start ∨ ((l.pc = Pc.done ∨ l.pc = Pc.panicked) ∧ l.torn = false)

/-- The cache cells of a server, every stored value marked as stored by handler `k`. -/
def Shared.ofServer (s : Server) (k : Nat) : Shared :=
  { lastCached := s.lastCached.map (fun t => (t, k)),
    cachedResponse := s.cachedResponse.map (fun b => (b, k)) }

/-- The surroundings of the three handlers of the torn run: handlers 0 and 1 both
start on the cold cache and fetch the prices 50000 and 60000; handler 1 stores its
timestamp at clock reading 100, handler 0 at 101; handler 2 tests freshness at
clock reading 102. -/
def tornTasks : Nat → Task := fun i =>
  if i = 0 then
    ⟨getRequest, { nowCheck := 0, getter := getterOf f50000, nowStore := 101, writeOk := true }⟩
  else if i = 1 then
    ⟨getRequest, { nowCheck := 0, getter := getterOf f60000, nowStore := 100, writeOk := true }⟩
  else
    ⟨getRequest, { nowCheck := 102, getter := getterOf f3000_3, nowStore := 103, writeOk := true }⟩

/-- The schedule of the torn run: handler 0 runs up to and including its store of
the bytes; handler 1 runs up to and including both of its stores; handler 0 stores
its timestamp and ends; handler 1 ends; handler 2 runs from start to end. -/
def tornSchedule : List Nat :=
  [0, 0, 0, 0, 1, 1, 1, 1, 1, 1, 0, 0, 0, 1, 2, 2, 2, 2, 2]

/-! ## Interleavings without a race on the cache -/

/-- The handler is between its two stores: the bytes are stored, the timestamp not yet. -/
def Pc.midPublish : Pc → Bool
  | Pc.readClockStore _ => true
  | Pc.storeTime _ _ => true
  | _ => false

/-- The handler is between its two loads of a hit: it has loaded the timestamp for
the comparison and found it fresh, and has not yet loaded the bytes. -/
def Pc.midRead : Pc → Bool
  | Pc.loadPayload => true
  | _ => false

/-- Whether handler `i`, one of the handlers `0 .. n-1`, may take its next step
without a race on the cache: it does not store its bytes while another handler is
between its two stores or between its two loads, and it does not load the timestamp
for the comparison while another handler is between its two stores. Every other
step is free. -/
def Config.safeStep (n : Nat) (c : Config) (i : Nat) : Bool :=
  decide (i < n) &&
    match (c.locals i).pc with
    | Pc.storePayload _ =>
      (List.range n).all fun j =>
        j == i || !((c.locals j).pc.midPublish || (c.locals j).pc.midRead)
    | Pc.loadTime _ => (List.range n).all fun j => j == i || !(c.locals j).pc.midPublish
    | _ => true

/-- Whether every step of the schedule, run from the configuration, is without a
race on the cache. -/
def Config.raceFree (lib : Lib) (ttl : Duration) (tasks : Nat → Task) (n : Nat) :
    Config → List Nat → Bool
  | _, [] => true
  | c, i :: rest =>
    c.safeStep n i && Config.raceFree lib ttl tasks n (c.stepAt lib ttl tasks i) rest

/-- What holds of a configuration reached without a race on the cache: handlers from
`n` on have not started; only a handler that returned has served bytes; no handler
has observed a torn entry; a handler between its two loads holds the timestamp that
is in the cache; at most one handler is between its two stores, the bytes in the
cache are then its own and no handler is between its two loads; and when no handler is
between its two stores the cache holds a whole entry or none. -/
structure Config.Sound (n : Nat) (c : Config) : Prop where
  idle : ∀ j, n ≤ j → c.locals j = Local.start
  unseen : ∀ j, (c.locals j).pc ≠ Pc.done → (c.locals j).seenPayload = none
  untorn : ∀ j, (c.locals j).torn = false
  reading : ∀ j, (c.locals j).pc = Pc.loadPayload →
    (c.locals j).seenTime = c.shared.lastCached
  one_writer : ∀ j k, (c.locals j).pc.midPublish = true →
    (c.locals k).pc.midPublish = true → j = k
  writing : ∀ j, (c.locals j).pc.midPublish = true →
    (∃ b, c.shared.cachedResponse = some (b, j)) ∧ ∀ k, (c.locals k).pc ≠ Pc.loadPayload
  quiet : (∀ j, (c.locals j).pc.midPublish = false) → c.shared.whole

/-- The surroundings of the three handlers of the runs with one publish under way:
handler 0 starts on the cold cache, fetches the price 50000 and stores its timestamp
at clock reading 0; handler 1 tests freshness at clock reading `ttl`, finds the
entry stale and fetches the price 60000; handler 2 tests freshness one nanosecond
earlier, at `ttl - 1`, and finds the entry fresh. -/
def staleTasks : Nat → Task := fun i =>
  if i = 0 then
    ⟨getRequest, { nowCheck := 0, getter := getterOf f50000, nowStore := 0, writeOk := true }⟩
  else if i = 1 then
    ⟨getRequest, { nowCheck := Minute, getter := getterOf f60000, nowStore := Minute + 1,
                   writeOk := true }⟩
  else
    ⟨getRequest, { nowCheck := Minute - 1, getter := getterOf f3000_3, nowStore := Minute,
                   writeOk := true }⟩

/-- A store between the two loads of a hit: handler 0 runs from start to end; handler 2
loads the timestamp and finds it fresh; handler 1 runs up to and including its store
of the bytes; handler 2 loads the bytes. -/
def storeInsideReadSchedule : List Nat :=
  [0, 0, 0, 0, 0, 0, 0, 2, 2, 2, 2, 1, 1, 1, 1, 1, 1, 2]

/-- A load of the timestamp between the two stores of a publish: handler 0 runs from
start to end; handler 2 reads the clock; handler 1 runs up to and including its
store of the bytes; handler 2 loads the timestamp and then the bytes. -/
def loadInsidePublishSchedule : List Nat :=
  [0, 0, 0, 0, 0, 0, 0, 2, 2, 2, 1, 1, 1, 1, 1, 1, 2, 2]

/-- The surroundings of the four handlers of the run without a race: handler 0 starts
on the cold cache, fetches the price 50000 and stores its timestamp at clock reading
100; handlers 1 and 2 test freshness at clock readings 101 and 102; handler 3 tests
freshness at clock reading `100 + ttl`, finds the entry stale and fetches the price
60000. -/
def sharedTasks : Nat → Task := fun i =>
  if i = 0 then
    ⟨getRequest, { nowCheck := 0, getter := getterOf f50000, nowStore := 100, writeOk := true }⟩
  else if i = 1 then
    ⟨getRequest, { nowCheck := 101, getter := getterOf f60000, nowStore := 0, writeOk := true }⟩
  else if i = 2 then
    ⟨getRequest, { nowCheck := 102, getter := getterOf f60000, nowStore := 0, writeOk := true }⟩
  else
    ⟨getRequest, { nowCheck := 100 + Minute, getter := getterOf f60000,
                   nowStore := 101 + Minute, writeOk := true }⟩

/-- A schedule without a race in which handlers overlap: handler 0 publishes; the two
hits of handlers 1 and 2 and the miss of handler 3 then run step by step in turn,
handler 3 storing its bytes and its timestamp after handlers 1 and 2 have loaded
theirs. -/
def sharedSchedule : List Nat :=
  [0, 0, 0, 0, 0, 0, 0, 1, 2, 3, 1, 2, 3, 1, 2, 3, 1, 2, 3, 1, 2, 3, 3, 3, 3, 3]

/-! ## The retriever: lemmas -/

theorem queryGet_request_url (pr : PriceRequester) (pairs : List String) :
    pr.apiUrl ++ "/" ++ ApiVersion ++ "/public/" ++ "Ticker" ++ "?" ++
      (Values.Add [] "pair" (String.intercalate "," pairs)).Encode = tickerURL pr pairs := by
  simp [tickerURL, String.append_assoc]

/-- With a mapping that binds no requested pair to a nil record, the loop returns:
either the kept prices behind what it had, or `ErrFloatPars` with no prices. -/
theorem GetLtp_loop_returns (lib : Lib) (tickerResp : TickerResponse) (pairs : List String)
    (priceInfos : List PriceInfo) (h : NoNilRecord tickerResp pairs) :
    (GetLtp.loop lib tickerResp pairs priceInfos =
        GoResult.returned (priceInfos ++ pairs.filterMap (keptPrice lib tickerResp), none) ∧
      ∀ pair ∈ pairs, ∀ close0, firstClose tickerResp pair = some close0 →
        lib.parseFloat close0 ≠ none) ∨
    (GetLtp.loop lib tickerResp pairs priceInfos =
        GoResult.returned ([], some RetrieverError.ErrFloatPars) ∧
      ∃ pair ∈ pairs, ∃ close0, firstClose tickerResp pair = some close0 ∧
        lib.parseFloat close0 = none) := by
  induction pairs generalizing priceInfos with
  | nil => left; simp [GetLtp.loop]
  | cons curr rest ih =>
    have hrest : NoNilRecord tickerResp rest := fun q hq => h q (List.mem_cons_of_mem _ hq)
    have hcurr := h curr (List.mem_cons_self _ _)
    cases hl : tickerResp.lookup curr with
    | none =>
      have hk : keptPrice lib tickerResp curr = none := by simp [keptPrice, firstClose, hl]
      have hf : firstClose tickerResp curr = none := by simp [firstClose, hl]
      rcases ih priceInfos hrest with ⟨h1, h2⟩ | ⟨h1, q, hq, c, hc, hp⟩
      · left
        refine ⟨by simp [GetLtp.loop, hl, h1, hk], ?_⟩
        intro q hq c hc
        rcases List.mem_cons.1 hq with rfl | hq
        · simp [hf] at hc
        · exact h2 q hq c hc
      · right
        exact ⟨by simp [GetLtp.loop, hl, h1], q, List.mem_cons_of_mem _ hq, c, hc, hp⟩
    | some rec =>
      cases rec with
      | none => exact absurd hl hcurr
      | some tickerData =>
        cases hclose : tickerData.Close with
        | nil =>
          have hf : firstClose tickerResp curr = none := by simp [firstClose, hl, hclose]
          have hk : keptPrice lib tickerResp curr = none := by simp [keptPrice, hf]
          rcases ih priceInfos hrest with ⟨h1, h2⟩ | ⟨h1, q, hq, c, hc, hp⟩
          · left
            refine ⟨by simp [GetLtp.loop, hl, hclose, h1, hk], ?_⟩
            intro q hq c hc
            rcases List.mem_cons.1 hq with rfl | hq
            · simp [hf] at hc
            · exact h2 q hq c hc
          · right
            exact ⟨by simp [GetLtp.loop, hl, hclose, h1], q, List.mem_cons_of_mem _ hq, c, hc, hp⟩
        | cons close0 more =>
          have hf : firstClose tickerResp curr = some close0 := by
            simp [firstClose, hl, hclose]
          cases hparse : lib.parseFloat close0 with
          | none =>
            right
            exact ⟨by simp [GetLtp.loop, hl, hclose, hparse], curr, List.mem_cons_self _ _,
              close0, hf, hparse⟩
          | some amount =>
            have hk : keptPrice lib tickerResp curr = some { Pair := curr, Amount := amount } := by
              simp [keptPrice, hf, hparse]
            rcases ih (priceInfos ++ [{ Pair := curr, Amount := amount }]) hrest with
              ⟨h1, h2⟩ | ⟨h1, q, hq, c, hc, hp⟩
            · left
              refine ⟨by simp [GetLtp.loop, hl, hclose, hparse, h1, hk], ?_⟩
              intro q hq c hc
              rcases List.mem_cons.1 hq with rfl | hq
              · rw [hf] at hc
                cases hc
                simp [hparse]
              · exact h2 q hq c hc
            · right
              exact ⟨by simp [GetLtp.loop, hl, hclose, hparse, h1], q,
                List.mem_cons_of_mem _ hq, c, hc, hp⟩

theorem doApiRequest_sent (pr : PriceRequester) (client : Client) (req : Request)
    (typ : Option TickerResponse) (hc : pr.client = some client) :
    (doApiRequest pr req [] typ).sent =
      [{ req with header := req.header ++ [("User-Agent", ApiUserAgent)] }] := by
  simp only [doApiRequest, hc, List.append_nil]
  repeat' split
  all_goals rfl

theorem GetLtp_sent (lib : Lib) (pr : PriceRequester) (pairs : List String) (hp : pairs ≠ []) :
    (GetLtp lib pr pairs).sent =
      (queryGet lib pr "Ticker" (Values.Add [] "pair" (String.intercalate "," pairs))
        (some [])).sent := by
  have hlen : pairs.length ≠ 0 := fun h0 => hp (List.length_eq_zero.1 h0)
  simp only [GetLtp, hlen, if_false]
  split <;> rfl

theorem queryGet_accepted (lib : Lib) (pr : PriceRequester) (pairs : List String)
    (typ : Option TickerResponse) (hurl : lib.parseURL (tickerURL pr pairs) = true) :
    queryGet lib pr "Ticker" (Values.Add [] "pair" (String.intercalate "," pairs)) typ =
      doApiRequest pr { method := MethodGet, url := tickerURL pr pairs, header := [] } [] typ := by
  simp only [queryGet, NewRequest, queryGet_request_url, hurl, if_true]

/-- Once the URL is accepted and the client is not nil, `GetLtp` hands exactly one
request to it: the ticker request of the pairs. -/
theorem GetLtp_sends_one_request (lib : Lib) (pr : PriceRequester) (client : Client)
    (pairs : List String) (hp : pairs ≠ []) (hc : pr.client = some client)
    (hurl : lib.parseURL (tickerURL pr pairs) = true) :
    (GetLtp lib pr pairs).sent = [tickerRequest pr pairs] := by
  rw [GetLtp_sent lib pr pairs hp, queryGet_accepted lib pr pairs _ hurl,
    doApiRequest_sent pr client _ _ hc]
  rfl

/-- What `doApiRequest` returns when the client answers with a JSON response whose
body decodes: `ErrKraken` when the decoded error list is not empty, the filled map
otherwise. -/
theorem doApiRequest_decoded (pr : PriceRequester) (client : Client) (req : Request)
    (resp : Response) (body : Body) (kr : KrakenResponse)
    (hc : pr.client = some client)
    (hresp : client { req with header := req.header ++ [("User-Agent", ApiUserAgent)] } =
      DoResult.response resp)
    (hbody : resp.body = some body) (hmedia : resp.mediaType = some "application/json")
    (hdec : Unmarshal body KrakenResponse.fresh = some kr) :
    (doApiRequest pr req [] (some [])).result =
      if kr.Error.elems.length > 0 then
        GoResult.returned (Except.error RetrieverError.ErrKraken)
      else GoResult.returned (Except.ok (some kr.target)) := by
  have hdec1 : Unmarshal body ⟨StrSlice.nil, (some ([] : TickerResponse)).isSome,
      (some ([] : TickerResponse)).getD []⟩ = some kr := hdec
  simp only [doApiRequest, hc, List.append_nil, hresp, hbody, hmedia, ne_eq, not_true_eq_false,
    if_false, hdec1]
  split <;> rfl

/-- What `doApiRequest` returns when the client answers with a JSON response whose
body does not decode. -/
theorem doApiRequest_undecoded (pr : PriceRequester) (client : Client) (req : Request)
    (resp : Response) (body : Body)
    (hc : pr.client = some client)
    (hresp : client { req with header := req.header ++ [("User-Agent", ApiUserAgent)] } =
      DoResult.response resp)
    (hbody : resp.body = some body) (hmedia : resp.mediaType = some "application/json")
    (hdec : Unmarshal body KrakenResponse.fresh = none) :
    (doApiRequest pr req [] (some [])).result =
      GoResult.returned (Except.error RetrieverError.ErrParseJsonBody) := by
  have hdec1 : Unmarshal body ⟨StrSlice.nil, (some ([] : TickerResponse)).isSome,
      (some ([] : TickerResponse)).getD []⟩ = none := hdec
  simp only [doApiRequest, hc, List.append_nil, hresp, hbody, hmedia, ne_eq, not_true_eq_false,
    if_false, hdec1]

/-- The result of `GetLtp` on pairs, from the result of its query. -/
theorem GetLtp_result (lib : Lib) (pr : PriceRequester) (pairs : List String) (hp : pairs ≠ []) :
    (GetLtp lib pr pairs).result =
      match (queryGet lib pr "Ticker" (Values.Add [] "pair" (String.intercalate "," pairs))
          (some [])).result with
      | GoResult.panicked => GoResult.panicked
      | GoResult.returned (Except.error err) => GoResult.returned ([], some err)
      | GoResult.returned (Except.ok typ) => GetLtp.loop lib (typ.getD []) pairs [] := by
  have hlen : pairs.length ≠ 0 := fun h0 => hp (List.length_eq_zero.1 h0)
  simp only [GetLtp, hlen, if_false]
  split <;> simp_all

/-- On a response that passes validation, `GetLtp` returns what its loop makes of the
decoded map. -/
theorem GetLtp_validated (lib : Lib) (pr : PriceRequester) (pairs : List String)
    (resp : Response) (body : Body) (kr : KrakenResponse)
    (hp : pairs ≠ []) (hc : pr.client = some (Client.always resp))
    (hurl : lib.parseURL (tickerURL pr pairs) = true)
    (hbody : resp.body = some body) (hmedia : resp.mediaType = some "application/json")
    (hdec : Unmarshal body KrakenResponse.fresh = some kr) (herr : kr.Error.elems = []) :
    (GetLtp lib pr pairs).result = GetLtp.loop lib kr.target pairs [] := by
  rw [GetLtp_result lib pr pairs hp, queryGet_accepted lib pr pairs _ hurl,
    doApiRequest_decoded pr _ _ resp body kr hc rfl hbody hmedia hdec]
  simp [herr]

/-- On a validated response whose map binds no requested pair to a nil record:
`GetLtp` returns `ErrFloatPars` with no prices exactly when some requested pair has a
first closing-price string that does not parse, and otherwise returns, with a nil
error, the kept prices of the requested pairs in input order, never more of them
than pairs. -/
theorem GetLtp_without_nil_record (lib : Lib) (pr : PriceRequester) (pairs : List String)
    (resp : Response) (body : Body) (kr : KrakenResponse)
    (hp : pairs ≠ []) (hc : pr.client = some (Client.always resp))
    (hurl : lib.parseURL (tickerURL pr pairs) = true)
    (hbody : resp.body = some body) (hmedia : resp.mediaType = some "application/json")
    (hdec : Unmarshal body KrakenResponse.fresh = some kr) (herr : kr.Error.elems = [])
    (hnil : NoNilRecord kr.target pairs) :
    ((GetLtp lib pr pairs).result = GoResult.returned ([], some RetrieverError.ErrFloatPars) ↔
      ∃ pair ∈ pairs, ∃ close0, firstClose kr.target pair = some close0 ∧
        lib.parseFloat close0 = none) ∧
    ((∀ pair ∈ pairs, ∀ close0, firstClose kr.target pair = some close0 →
        lib.parseFloat close0 ≠ none) →
      (GetLtp lib pr pairs).result =
        GoResult.returned (pairs.filterMap (keptPrice lib kr.target), none)) ∧
    (pairs.filterMap (keptPrice lib kr.target)).length ≤ pairs.length := by
  rw [GetLtp_validated lib pr pairs resp body kr hp hc hurl hbody hmedia hdec herr]
  refine ⟨?_, ?_, List.length_filterMap_le _ _⟩
  · rcases GetLtp_loop_returns lib kr.target pairs [] hnil with ⟨h1, h2⟩ | ⟨h1, h2⟩
    · constructor
      · intro h
        rw [h1] at h
        simp at h
      · rintro ⟨q, hq, c, hc1, hc2⟩
        exact absurd hc2 (h2 q hq c hc1)
    · exact ⟨fun _ => h2, fun _ => h1⟩
  · intro hall
    rcases GetLtp_loop_returns lib kr.target pairs [] hnil with ⟨h1, _⟩ | ⟨_, q, hq, c, hc1, hc2⟩
    · simpa using h1
    · exact absurd hc2 (hall q hq c hc1)

/-! ## Claims on the retriever -/

/-- C8: `GetLtp` called with zero pairs returns `ErrNoPairs` and no prices, and
hands no request to the client, whatever the library and the requester (its URL,
its version, its client, nil or not). -/
theorem GetLtp_no_pairs (lib : Lib) (pr : PriceRequester) :
    (GetLtp lib pr []).result = GoResult.returned ([], some RetrieverError.ErrNoPairs) ∧
      (GetLtp lib pr []).sent = [] := by
  simp [GetLtp]

/-- C1, at the failing input: asked for `BTC/USD` and `BTC/EUR` with the upstream
document `{"error":[],"result":{"BTC/USD":{"c":["3000.3"]},"BTC/EUR":null}}`,
`GetLtp` sends its one request and then stops with a panic; it does not return the
price of `BTC/USD`. -/
theorem GetLtp_price_then_null_record :
    (GetLtp tableLib (requesterAnswering docPriceThenNull) ["BTC/USD", "BTC/EUR"]).result =
        GoResult.panicked ∧
      (GetLtp tableLib (requesterAnswering docPriceThenNull) ["BTC/USD", "BTC/EUR"]).result ≠
        GoResult.returned ([{ Pair := "BTC/USD", Amount := f3000_3 }], none) := by
  decide

/-- C7, at the failing input: asked for `BTC/CHF` and `BTC/USD` with the upstream
document `{"error":[],"result":{"BTC/CHF":null,"BTC/USD":{"c":["abc"]}}}`, `GetLtp`
stops with a panic; it does not return `ErrFloatPars`. -/
theorem GetLtp_null_record_then_bad_float :
    (GetLtp tableLib (requesterAnswering docNullThenBadFloat) ["BTC/CHF", "BTC/USD"]).result =
        GoResult.panicked ∧
      (GetLtp tableLib (requesterAnswering docNullThenBadFloat) ["BTC/CHF", "BTC/USD"]).result ≠
        GoResult.returned ([], some RetrieverError.ErrFloatPars) := by
  decide

/-- C10, at the failing input: asked for `BTC/USD` with the upstream document
`{"error":[],"result":{"BTC/USD":null}}`, the decoded map binds `BTC/USD` to a nil
record and `GetLtp` stops with a panic; it returns neither a price list nor
`ErrFloatPars`. -/
theorem GetLtp_null_record_panics :
    Unmarshal (Body.json docNullRecord) KrakenResponse.fresh =
        some { Error := StrSlice.nil, bound := true, target := [("BTC/USD", none)] } ∧
      (GetLtp tableLib (requesterAnswering docNullRecord) ["BTC/USD"]).result =
        GoResult.panicked := by
  decide

/-- C5, at the failing input: a requester configured with version `1` still sends
its request to the path of version `0`, the constant `ApiVersion`. -/
theorem GetLtp_ignores_configured_version :
    (GetLtp tableLib
        (NewPriceRequester "https://api.kraken.com" "1"
          (some (Client.always (jsonResponse docOnePrice)))) ["BTC/USD"]).sent =
      [{ method := "GET",
         url := "https://api.kraken.com/0/public/Ticker?pair=BTC%2FUSD",
         header := [("User-Agent", ApiUserAgent)] }] := by
  decide

/-- C6, counterexample: the upstream document
`{"error":["EGeneral:Internal error"],"result":[]}` has a non-empty error list, and
`GetLtp` returns `ErrParseJsonBody`, not `ErrKraken`, because the result field does
not decode into the ticker map. -/
theorem GetLtp_error_list_with_array_result :
    (GetLtp tableLib (requesterAnswering docErrorWithArrayResult) ["BTC/USD"]).result =
        GoResult.returned ([], some RetrieverError.ErrParseJsonBody) ∧
      (GetLtp tableLib (requesterAnswering docErrorWithArrayResult) ["BTC/USD"]).result ≠
        GoResult.returned ([], some RetrieverError.ErrKraken) := by
  decide

/-- C6 (amended): for a non-empty list of pairs and a response with the JSON media
type, answered to the one request of `GetLtp`: when the body decodes into the
envelope and the decoded error list is not empty, `GetLtp` returns `ErrKraken` and
no prices, whatever the decoded result map holds; when the body does not decode,
`GetLtp` returns `ErrParseJsonBody` and no prices. -/
theorem GetLtp_upstream_error (lib : Lib) (pr : PriceRequester) (pairs : List String)
    (resp : Response) (body : Body)
    (hp : pairs ≠ []) (hc : pr.client = some (Client.always resp))
    (hurl : lib.parseURL (tickerURL pr pairs) = true)
    (hbody : resp.body = some body) (hmedia : resp.mediaType = some "application/json") :
    (∀ kr, Unmarshal body KrakenResponse.fresh = some kr → kr.Error.elems ≠ [] →
      (GetLtp lib pr pairs).result = GoResult.returned ([], some RetrieverError.ErrKraken)) ∧
    (Unmarshal body KrakenResponse.fresh = none →
      (GetLtp lib pr pairs).result =
        GoResult.returned ([], some RetrieverError.ErrParseJsonBody)) := by
  constructor
  · intro kr hdec herr
    have hlen : kr.Error.elems.length > 0 := List.length_pos.2 herr
    rw [GetLtp_result lib pr pairs hp, queryGet_accepted lib pr pairs _ hurl,
      doApiRequest_decoded pr _ _ resp body kr hc rfl hbody hmedia hdec]
    simp [hlen]
  · intro hdec
    rw [GetLtp_result lib pr pairs hp, queryGet_accepted lib pr pairs _ hurl,
      doApiRequest_undecoded pr _ _ resp body hc rfl hbody hmedia hdec]

/-- C6 (amended), at a concrete input: the document
`{"error":["EQuery:Unknown asset pair"],"result":{"BTC/USD":{"c":["3000.3"]}}}`
decodes, its result holds a price for the requested pair, and `GetLtp` returns
`ErrKraken` with no prices. -/
theorem GetLtp_upstream_error_witness :
    Unmarshal (Body.json docErrorWithPrices) KrakenResponse.fresh =
        some { Error := ⟨["EQuery:Unknown asset pair"], []⟩, bound := true,
               target := [("BTC/USD", some ⟨["3000.3"]⟩)] } ∧
      (GetLtp tableLib (requesterAnswering docErrorWithPrices) ["BTC/USD"]).result =
        GoResult.returned ([], some RetrieverError.ErrKraken) :=
  ⟨by decide,
    (GetLtp_upstream_error tableLib (requesterAnswering docErrorWithPrices) ["BTC/USD"]
      (jsonResponse docErrorWithPrices) (Body.json docErrorWithPrices)
      (by decide) rfl rfl rfl rfl).1
      { Error := ⟨["EQuery:Unknown asset pair"], []⟩, bound := true,
        target := [("BTC/USD", some ⟨["3000.3"]⟩)] } (by decide) (by decide)⟩

/-! ## The handler: lemmas -/

theorem isFresh_true_iff (s : Server) (env : Env) :
    (isFresh s env).1 = true ↔
      ∃ t, s.lastCached = some t ∧ Sub env.nowCheck t < s.cachedTime := by
  unfold isFresh
  cases s.lastCached with
  | none => simp
  | some t => simp

theorem isFresh_false_of_miss (s : Server) (env : Env)
    (hmiss : s.lastCached = none ∨
      ∃ t, s.lastCached = some t ∧ s.cachedTime ≤ Sub env.nowCheck t) :
    (isFresh s env).1 = false := by
  cases hf : (isFresh s env).1 with
  | false => rfl
  | true =>
    obtain ⟨t, ht, hlt⟩ := (isFresh_true_iff s env).1 hf
    rcases hmiss with hnone | ⟨u, hu, hle⟩
    · rw [hnone] at ht
      cases ht
    · rw [hu] at ht
      cases ht
      exact absurd hlt (not_lt.2 hle)

theorem miss_of_isFresh_false (s : Server) (env : Env) (hf : (isFresh s env).1 = false) :
    s.lastCached = none ∨
      ∃ t, s.lastCached = some t ∧ s.cachedTime ≤ Sub env.nowCheck t := by
  cases hl : s.lastCached with
  | none => exact Or.inl rfl
  | some t =>
    right
    refine ⟨t, rfl, ?_⟩
    by_contra hlt
    have h1 := (isFresh_true_iff s env).2 ⟨t, hl, not_le.1 hlt⟩
    rw [hf] at h1
    cases h1

theorem isFresh_log_quiet (s : Server) (env : Env) :
    upstreamCalls (isFresh s env).2 = [] ∧
      (isFresh s env).2.filter Effect.isOutput = [] ∧
      (isFresh s env).2.any Effect.isWrite = false := by
  unfold isFresh
  cases s.lastCached <;> simp [upstreamCalls, Effect.isOutput, Effect.isWrite]

/-- The hit path: the log, the answer, and the untouched server. -/
theorem handlePriceRequest_hit (lib : Lib) (s : Server) (r : HttpRequest) (env : Env)
    (t : Time) (payload : String)
    (hget : r.Method = MethodGet) (ht : s.lastCached = some t)
    (hfresh : Sub env.nowCheck t < s.cachedTime) (hp : s.cachedResponse = some payload) :
    (handlePriceRequest lib s r env).log =
        [Effect.headerSet "Content-Type" "application/json", Effect.loadLastCached,
          Effect.timeNow, Effect.loadLastCached, Effect.loadCachedResponse] ++
          writeResponse env payload ∧
      (handlePriceRequest lib s r env).server = s ∧
      (handlePriceRequest lib s r env).panicked = false := by
  have hf : (isFresh s env).1 = true := (isFresh_true_iff s env).2 ⟨t, ht, hfresh⟩
  have hl : (isFresh s env).2 =
      [Effect.loadLastCached, Effect.timeNow, Effect.loadLastCached] := by
    simp [isFresh, ht]
  simp [handlePriceRequest, hget, hf, hl, hp]

/-- The miss path up to the answer of the price getter. -/
theorem handlePriceRequest_miss (lib : Lib) (s : Server) (r : HttpRequest) (env : Env)
    (hget : r.Method = MethodGet) (hf : (isFresh s env).1 = false) :
    handlePriceRequest lib s r env =
      match env.getter fixedPairs with
      | GoResult.panicked =>
        ⟨s, [Effect.headerSet "Content-Type" "application/json"] ++ (isFresh s env).2 ++
          [Effect.getLtp fixedPairs], true⟩
      | GoResult.returned (_, some _) =>
        ⟨s, [Effect.headerSet "Content-Type" "application/json"] ++ (isFresh s env).2 ++
          [Effect.getLtp fixedPairs] ++
          [Effect.httpError ErrGetLtp StatusInternalServerError], false⟩
      | GoResult.returned (res, none) =>
        match Marshal lib { Ltp := res } with
        | none =>
          ⟨s, [Effect.headerSet "Content-Type" "application/json"] ++ (isFresh s env).2 ++
            [Effect.getLtp fixedPairs] ++
            [Effect.httpError ErrMarshalJsonLtp StatusInternalServerError], false⟩
        | some bResp =>
          ⟨{ s with cachedResponse := some bResp, lastCached := some env.nowStore },
            [Effect.headerSet "Content-Type" "application/json"] ++ (isFresh s env).2 ++
            [Effect.getLtp fixedPairs] ++
            [Effect.storeCachedResponse bResp, Effect.timeNow,
              Effect.storeLastCached env.nowStore] ++ writeResponse env bResp, false⟩ := by
  simp only [handlePriceRequest, hget, ne_eq, not_true_eq_false, if_false, hf, fixedPairs,
    Bool.false_eq_true]

theorem isFresh_no_error (s : Server) (env : Env) (message : String) (code : Nat) :
    Effect.httpError message code ∈ (isFresh s env).2 ↔ False := by
  unfold isFresh
  cases s.lastCached <;> simp

theorem upstreamCalls_append (a b : List Effect) :
    upstreamCalls (a ++ b) = upstreamCalls a ++ upstreamCalls b := by
  induction a with
  | nil => rfl
  | cons e rest ih => cases e <;> simp [upstreamCalls, ih]

theorem writeResponse_quiet (env : Env) (data : String) :
    upstreamCalls (writeResponse env data) = [] := by
  unfold writeResponse
  split <;> rfl

theorem answer_of_written (pre : List Effect) (env : Env) (data : String)
    (hpre : pre.filter Effect.isOutput = []) (hw : env.writeOk = true) :
    answer (pre ++ writeResponse env data) = some ⟨StatusOK, data⟩ := by
  simp [answer, writeResponse, hw, List.filter_append, hpre, Effect.isOutput]

theorem answer_of_error (pre : List Effect) (message : String) (code : Nat)
    (hpre : pre.filter Effect.isOutput = []) :
    answer (pre ++ [Effect.httpError message code]) = some ⟨code, message⟩ := by
  simp [answer, List.filter_append, hpre, Effect.isOutput]

/-- A marshalled response is the object with the key `ltp` over the prices in order,
and none of its amounts is NaN or infinite. -/
theorem Marshal_eq_some (lib : Lib) (res : List PriceInfo) (bResp : String)
    (h : Marshal lib { Ltp := res } = some bResp) :
    bResp = "\x7b\"ltp\":[" ++ String.intercalate "," (res.map (marshalPriceInfo lib)) ++ "]\x7d" ∧
      ∀ p ∈ res, p.Amount.IsNaN = false ∧ p.Amount.IsInf = false := by
  unfold Marshal at h
  split at h
  · cases h
  · rename_i hany
    refine ⟨by injection h with h; exact h.symm, ?_⟩
    intro p hp
    have := List.any_eq_true.not.1 hany
    have hq : ¬ ((p.Amount.IsNaN || p.Amount.IsInf) = true) := fun hc => this ⟨p, hp, hc⟩
    simpa using hq

/-- A price list with an amount that is NaN or infinite does not marshal. -/
theorem Marshal_eq_none (lib : Lib) (res : List PriceInfo)
    (h : ∃ p ∈ res, p.Amount.IsNaN = true ∨ p.Amount.IsInf = true) :
    Marshal lib { Ltp := res } = none := by
  obtain ⟨p, hp, hbad⟩ := h
  have hany : (res.any fun p => p.Amount.IsNaN || p.Amount.IsInf) = true :=
    List.any_eq_true.2 ⟨p, hp, by simpa using hbad⟩
  simp [Marshal, hany]

/-- A request with another method: one call of `http.Error`, nothing else. -/
theorem handlePriceRequest_bad_method (lib : Lib) (s : Server) (r : HttpRequest) (env : Env)
    (hm : r.Method ≠ MethodGet) :
    handlePriceRequest lib s r env =
      ⟨s, [Effect.httpError ErrBadLtpMethod StatusBadRequest], false⟩ := by
  simp [handlePriceRequest, hm]

/-- The hit path with no bytes behind the timestamp: a nil dereference. -/
theorem handlePriceRequest_hit_nil (lib : Lib) (s : Server) (r : HttpRequest) (env : Env)
    (hget : r.Method = MethodGet) (hf : (isFresh s env).1 = true)
    (hp : s.cachedResponse = none) :
    (handlePriceRequest lib s r env).server = s ∧
      (handlePriceRequest lib s r env).panicked = true := by
  simp [handlePriceRequest, hget, hf, hp]

/-- The hit path leaves the server as it was. -/
theorem handlePriceRequest_hit_server (lib : Lib) (s : Server) (r : HttpRequest) (env : Env)
    (hget : r.Method = MethodGet) (hf : (isFresh s env).1 = true) :
    (handlePriceRequest lib s r env).server = s := by
  cases hp : s.cachedResponse with
  | none => exact (handlePriceRequest_hit_nil lib s r env hget hf hp).1
  | some payload => simp [handlePriceRequest, hget, hf, hp]

/-- Whatever the request, the server afterwards is the server before, or the server
before with both cache cells replaced. -/
theorem handlePriceRequest_server (lib : Lib) (s : Server) (r : HttpRequest) (env : Env) :
    (handlePriceRequest lib s r env).server = s ∨
      ∃ bResp, (handlePriceRequest lib s r env).server =
        { s with cachedResponse := some bResp, lastCached := some env.nowStore } := by
  by_cases hget : r.Method = MethodGet
  · cases hf : (isFresh s env).1 with
    | true => exact Or.inl (handlePriceRequest_hit_server lib s r env hget hf)
    | false =>
      rw [handlePriceRequest_miss lib s r env hget hf]
      cases env.getter fixedPairs with
      | panicked => exact Or.inl rfl
      | returned v =>
        obtain ⟨res, err⟩ := v
        cases err with
        | some e => exact Or.inl rfl
        | none =>
          cases hm : Marshal lib { Ltp := res } with
          | none =>
            left
            simp [hm]
          | some bResp =>
            right
            exact ⟨bResp, by simp [hm]⟩
  · rw [handlePriceRequest_bad_method lib s r env hget]
    exact Or.inl rfl

/-- The handler changes neither the address nor the TTL. -/
theorem handlePriceRequest_keeps_config (lib : Lib) (s : Server) (r : HttpRequest) (env : Env) :
    (handlePriceRequest lib s r env).server.Addr = s.Addr ∧
      (handlePriceRequest lib s r env).server.cachedTime = s.cachedTime := by
  rcases handlePriceRequest_server lib s r env with h | ⟨bResp, h⟩
  · rw [h]
    exact ⟨rfl, rfl⟩
  · rw [h]
    exact ⟨rfl, rfl⟩

/-- In operation a stored timestamp always comes with stored bytes. -/
theorem Reachable.entry_whole (lib : Lib) (s : Server) (hs : Reachable lib s) :
    s.lastCached ≠ none → s.cachedResponse ≠ none := by
  induction hs with
  | new addr ttl => intro h; exact absurd rfl h
  | handled s r env _ ih =>
    rcases handlePriceRequest_server lib s r env with h | ⟨bResp, h⟩
    · rw [h]
      exact ih
    · rw [h]
      intro _
      simp

/-! ## Claims on the handler -/

/-- C2, counterexample: on the server left by one successful fetch, a `GET` whose clock
reading is inside the TTL window and whose `w.Write` fails is not answered with
status 200 and the cached bytes: the handler goes on to
`http.Error(w, "error write response", 500)`. It makes no `GetLtp` call and leaves
the server as it was. -/
theorem cached_answer_write_failure :
    Reachable tableLib serverAfterFetch ∧
      serverAfterFetch.lastCached = some 5 ∧
      serverAfterFetch.cachedResponse = some payload50000 ∧
      Sub 6 5 < serverAfterFetch.cachedTime ∧
      (handlePriceRequest tableLib serverAfterFetch getRequest
          { nowCheck := 6, getter := getterOf f60000, nowStore := 7, writeOk := false }).log =
        [Effect.headerSet "Content-Type" "application/json", Effect.loadLastCached,
          Effect.timeNow, Effect.loadLastCached, Effect.loadCachedResponse,
          Effect.write payload50000 false,
          Effect.httpError "error write response" 500] ∧
      answer (handlePriceRequest tableLib serverAfterFetch getRequest
          { nowCheck := 6, getter := getterOf f60000, nowStore := 7, writeOk := false }).log ≠
        some ⟨200, payload50000⟩ ∧
      (handlePriceRequest tableLib serverAfterFetch getRequest
          { nowCheck := 6, getter := getterOf f60000, nowStore := 7, writeOk := false }).server =
        serverAfterFetch :=
  ⟨Reachable.handled _ _ _ (Reachable.new ":8080" Minute), by decide, by decide, by decide,
    by decide, by decide, by decide⟩

/-- C2 (amended): on a server state met in operation, a `GET` whose clock reading is
inside the TTL window of the stored entry hands exactly the stored bytes to `w.Write`,
calls `GetLtp` zero times and leaves the server as it was, whether the write succeeds
or not; when the write succeeds the answer is status 200 with exactly the stored
bytes, and when it fails the handler goes on to
`http.Error(w, "error write response", 500)`. Hence after a fetch that succeeds, two
further `GET`s inside the window of the new entry leave the entry in place, there is
one `GetLtp` call over the three requests whatever the price getter would return by
then, and each of the three requests whose write succeeds is answered with status
200 and the bytes of the fetch. -/
theorem cached_answer_within_ttl (lib : Lib) (s : Server) (hs : Reachable lib s) :
    (∀ (r : HttpRequest) (env : Env) (t : Time),
      r.Method = MethodGet → s.lastCached = some t →
      Sub env.nowCheck t < s.cachedTime →
      ∃ payload, s.cachedResponse = some payload ∧
        (handlePriceRequest lib s r env).log =
          [Effect.headerSet "Content-Type" "application/json", Effect.loadLastCached,
            Effect.timeNow, Effect.loadLastCached, Effect.loadCachedResponse] ++
            writeResponse env payload ∧
        upstreamCalls (handlePriceRequest lib s r env).log = [] ∧
        (handlePriceRequest lib s r env).server = s ∧
        (handlePriceRequest lib s r env).panicked = false ∧
        (env.writeOk = true →
          answer (handlePriceRequest lib s r env).log = some ⟨StatusOK, payload⟩) ∧
        (env.writeOk = false →
          (handlePriceRequest lib s r env).log =
            [Effect.headerSet "Content-Type" "application/json", Effect.loadLastCached,
              Effect.timeNow, Effect.loadLastCached, Effect.loadCachedResponse,
              Effect.write payload false,
              Effect.httpError "error write response" 500])) ∧
    (∀ (env1 env2 env3 : Env) (res : List PriceInfo) (bResp : String),
      (isFresh s env1).1 = false →
      env1.getter fixedPairs = GoResult.returned (res, none) →
      Marshal lib { Ltp := res } = some bResp →
      Sub env2.nowCheck env1.nowStore < s.cachedTime →
      Sub env3.nowCheck env1.nowStore < s.cachedTime →
      upstreamCalls
        ((handlePriceRequest lib s getRequest env1).log ++
          (handlePriceRequest lib (handlePriceRequest lib s getRequest env1).server
            getRequest env2).log ++
          (handlePriceRequest lib
            (handlePriceRequest lib (handlePriceRequest lib s getRequest env1).server
              getRequest env2).server getRequest env3).log) = [fixedPairs] ∧
      (handlePriceRequest lib s getRequest env1).server.cachedResponse = some bResp ∧
      (handlePriceRequest lib s getRequest env1).server.lastCached = some env1.nowStore ∧
      (handlePriceRequest lib (handlePriceRequest lib s getRequest env1).server
        getRequest env2).server = (handlePriceRequest lib s getRequest env1).server ∧
      (handlePriceRequest lib
        (handlePriceRequest lib (handlePriceRequest lib s getRequest env1).server
          getRequest env2).server getRequest env3).server =
        (handlePriceRequest lib s getRequest env1).server ∧
      (env1.writeOk = true →
        answer (handlePriceRequest lib s getRequest env1).log = some ⟨StatusOK, bResp⟩) ∧
      (env2.writeOk = true →
        answer (handlePriceRequest lib (handlePriceRequest lib s getRequest env1).server
          getRequest env2).log = some ⟨StatusOK, bResp⟩) ∧
      (env3.writeOk = true →
        answer (handlePriceRequest lib
          (handlePriceRequest lib (handlePriceRequest lib s getRequest env1).server
            getRequest env2).server getRequest env3).log = some ⟨StatusOK, bResp⟩)) := by
  have hit : ∀ (s : Server) (r : HttpRequest) (env : Env) (t : Time) (payload : String),
      r.Method = MethodGet → s.lastCached = some t →
      Sub env.nowCheck t < s.cachedTime → s.cachedResponse = some payload →
        (handlePriceRequest lib s r env).log =
          [Effect.headerSet "Content-Type" "application/json", Effect.loadLastCached,
            Effect.timeNow, Effect.loadLastCached, Effect.loadCachedResponse] ++
            writeResponse env payload ∧
        upstreamCalls (handlePriceRequest lib s r env).log = [] ∧
        (handlePriceRequest lib s r env).server = s ∧
        (handlePriceRequest lib s r env).panicked = false ∧
        (env.writeOk = true →
          answer (handlePriceRequest lib s r env).log = some ⟨StatusOK, payload⟩) ∧
        (env.writeOk = false →
          (handlePriceRequest lib s r env).log =
            [Effect.headerSet "Content-Type" "application/json", Effect.loadLastCached,
              Effect.timeNow, Effect.loadLastCached, Effect.loadCachedResponse,
              Effect.write payload false,
              Effect.httpError "error write response" 500]) := by
    intro s r env t payload hget ht hfresh hp
    obtain ⟨hlog, hsrv, hpan⟩ := handlePriceRequest_hit lib s r env t payload hget ht hfresh hp
    refine ⟨hlog, ?_, hsrv, hpan, ?_, ?_⟩
    · rw [hlog, upstreamCalls_append, writeResponse_quiet]
      rfl
    · intro hw
      rw [hlog]
      exact answer_of_written _ env payload (by simp [Effect.isOutput]) hw
    · intro hw
      rw [hlog]
      simp [writeResponse, hw, ErrWriteResponse, StatusInternalServerError]
  constructor
  · intro r env t hget ht hfresh
    cases hp : s.cachedResponse with
    | none => exact absurd hp (Reachable.entry_whole lib s hs (by simp [ht]))
    | some payload => exact ⟨payload, rfl, hit s r env t payload hget ht hfresh hp⟩
  · intro env1 env2 env3 res bResp hf hg hm h2 h3
    have e1 : handlePriceRequest lib s getRequest env1 =
        ⟨s.stored bResp env1.nowStore,
          [Effect.headerSet "Content-Type" "application/json"] ++ (isFresh s env1).2 ++
            [Effect.getLtp fixedPairs] ++
            [Effect.storeCachedResponse bResp, Effect.timeNow,
              Effect.storeLastCached env1.nowStore] ++ writeResponse env1 bResp, false⟩ := by
      rw [handlePriceRequest_miss lib s getRequest env1 rfl hf, hg]
      simp [hm, Server.stored]
    obtain ⟨_, u2, s2, _, a2, _⟩ := hit (s.stored bResp env1.nowStore) getRequest env2
      env1.nowStore bResp rfl rfl h2 rfl
    obtain ⟨_, u3, s3, _, a3, _⟩ := hit (s.stored bResp env1.nowStore) getRequest env3
      env1.nowStore bResp rfl rfl h3 rfl
    rw [e1]
    simp only []
    rw [s2]
    refine ⟨?_, rfl, rfl, rfl, s3, ?_, a2, a3⟩
    · rw [upstreamCalls_append, upstreamCalls_append, u2, u3]
      simp [upstreamCalls_append, (isFresh_log_quiet s env1).1, writeResponse_quiet,
        upstreamCalls]
    · intro hw1
      have hq := (isFresh_log_quiet s env1).2.1
      exact answer_of_written _ env1 bResp
        (by simp [List.filter_append, hq, Effect.isOutput]) hw1

/-- C2 (amended), at a concrete input: on the server left by one successful fetch of
the price 50000, a `GET` at clock reading 6 is answered with the stored bytes, though
the price getter would now return 60000; it makes no `GetLtp` call and leaves the
server as it was. -/
theorem cached_answer_within_ttl_witness :
    answer (handlePriceRequest tableLib serverAfterFetch getRequest
        { nowCheck := 6, getter := getterOf f60000, nowStore := 7, writeOk := true }).log =
        some ⟨200, payload50000⟩ ∧
      upstreamCalls (handlePriceRequest tableLib serverAfterFetch getRequest
        { nowCheck := 6, getter := getterOf f60000, nowStore := 7, writeOk := true }).log = [] ∧
      (handlePriceRequest tableLib serverAfterFetch getRequest
        { nowCheck := 6, getter := getterOf f60000, nowStore := 7, writeOk := true }).server =
        serverAfterFetch := by
  obtain ⟨payload, hp, _, hu, hsrv, _, ha, _⟩ :=
    (cached_answer_within_ttl tableLib serverAfterFetch
      (Reachable.handled _ _ _ (Reachable.new ":8080" Minute))).1 getRequest
      { nowCheck := 6, getter := getterOf f60000, nowStore := 7, writeOk := true } 5
      rfl (by decide) (by decide)
  have hp2 : serverAfterFetch.cachedResponse = some payload50000 := by decide
  rw [hp2] at hp
  cases hp
  exact ⟨ha rfl, hu, hsrv⟩

/-- C3, counterexample: on a new server (empty cache), a `GET` whose `GetLtp` call and
serialization succeed but whose `w.Write` fails is not answered with status 200 and
the serialized prices: the handler stores the new entry and then goes on to
`http.Error(w, "error write response", 500)`. -/
theorem fetched_answer_write_failure :
    (NewServer ":8080").lastCached = none ∧
      Marshal tableLib { Ltp := [{ Pair := BtcUsdPair, Amount := f50000 }] } =
        some payload50000 ∧
      (handlePriceRequest tableLib (NewServer ":8080") getRequest
          { nowCheck := 0, getter := getterOf f50000, nowStore := 5, writeOk := false }).log =
        [Effect.headerSet "Content-Type" "application/json", Effect.loadLastCached,
          Effect.getLtp ["BTC/CHF", "BTC/USD", "BTC/EUR"],
          Effect.storeCachedResponse payload50000, Effect.timeNow, Effect.storeLastCached 5,
          Effect.write payload50000 false,
          Effect.httpError "error write response" 500] ∧
      answer (handlePriceRequest tableLib (NewServer ":8080") getRequest
          { nowCheck := 0, getter := getterOf f50000, nowStore := 5, writeOk := false }).log ≠
        some ⟨200, payload50000⟩ := by
  decide

/-- C3 (amended): the freshness test holds exactly when a timestamp is stored and
`now - capturedAt < ttl`. On a `GET` for which no timestamp is stored or
`now - capturedAt >= ttl`, the handler calls `GetLtp` once, for the three fixed
pairs. When that call returns prices with a nil error and they marshal, the bytes
are the object with the key `ltp` over the prices in the order returned, the server
afterwards holds exactly these bytes and the clock reading taken between the two
stores, and, when the write succeeds, the answer is status 200 with these bytes. -/
theorem stale_request_fetches (lib : Lib) (s : Server) (r : HttpRequest) (env : Env) :
    ((isFresh s env).1 = true ↔
      ∃ t, s.lastCached = some t ∧ Sub env.nowCheck t < s.cachedTime) ∧
    (r.Method = MethodGet →
      (s.lastCached = none ∨ ∃ t, s.lastCached = some t ∧ s.cachedTime ≤ Sub env.nowCheck t) →
      upstreamCalls (handlePriceRequest lib s r env).log =
        [[BtcChfPair, BtcUsdPair, BtcEurPair]] ∧
      ∀ (res : List PriceInfo) (bResp : String),
        env.getter [BtcChfPair, BtcUsdPair, BtcEurPair] = GoResult.returned (res, none) →
        Marshal lib { Ltp := res } = some bResp →
        bResp = "\x7b\"ltp\":[" ++
          String.intercalate "," (res.map (marshalPriceInfo lib)) ++ "]\x7d" ∧
        (handlePriceRequest lib s r env).server =
          { Addr := s.Addr, cachedTime := s.cachedTime, lastCached := some env.nowStore,
            cachedResponse := some bResp } ∧
        (handlePriceRequest lib s r env).log =
          [Effect.headerSet "Content-Type" "application/json"] ++ (isFresh s env).2 ++
            [Effect.getLtp [BtcChfPair, BtcUsdPair, BtcEurPair],
              Effect.storeCachedResponse bResp, Effect.timeNow,
              Effect.storeLastCached env.nowStore] ++ writeResponse env bResp ∧
        (env.writeOk = true →
          answer (handlePriceRequest lib s r env).log = some ⟨StatusOK, bResp⟩)) := by
  refine ⟨isFresh_true_iff s env, ?_⟩
  intro hget hmiss
  have hf := isFresh_false_of_miss s env hmiss
  have hq := isFresh_log_quiet s env
  rw [handlePriceRequest_miss lib s r env hget hf]
  constructor
  · cases env.getter fixedPairs with
    | panicked => simp [upstreamCalls_append, hq.1, upstreamCalls, fixedPairs]
    | returned v =>
      obtain ⟨res, err⟩ := v
      cases err with
      | some e => simp [upstreamCalls_append, hq.1, upstreamCalls, fixedPairs]
      | none =>
        cases hm : Marshal lib { Ltp := res } with
        | none => simp [hm, upstreamCalls_append, hq.1, upstreamCalls, fixedPairs]
        | some bResp =>
          simp [hm, upstreamCalls_append, hq.1, upstreamCalls, fixedPairs, writeResponse_quiet]
  · intro res bResp hg hm
    have hg1 : env.getter fixedPairs = GoResult.returned (res, none) := hg
    rw [hg1]
    simp only [hm]
    refine ⟨(Marshal_eq_some lib res bResp hm).1, trivial, ?_, ?_⟩
    · simp [fixedPairs]
    · intro hw
      exact answer_of_written _ env bResp
        (by simp [List.filter_append, hq.2.1, Effect.isOutput]) hw

/-- C3 (amended), at a concrete input: a server whose entry was stored at clock
reading 5 gets a `GET` at clock reading `5 + ttl` exactly; the handler fetches, and
answers and stores the new price 60000. -/
theorem stale_request_fetches_witness :
    serverAfterFetch.cachedTime ≤ Sub (5 + Minute) 5 ∧
      upstreamCalls (handlePriceRequest tableLib serverAfterFetch getRequest
        { nowCheck := 5 + Minute, getter := getterOf f60000, nowStore := 6 + Minute,
          writeOk := true }).log = [[BtcChfPair, BtcUsdPair, BtcEurPair]] ∧
      answer (handlePriceRequest tableLib serverAfterFetch getRequest
        { nowCheck := 5 + Minute, getter := getterOf f60000, nowStore := 6 + Minute,
          writeOk := true }).log = some ⟨200, payload60000⟩ ∧
      (handlePriceRequest tableLib serverAfterFetch getRequest
        { nowCheck := 5 + Minute, getter := getterOf f60000, nowStore := 6 + Minute,
          writeOk := true }).server =
        { Addr := ":8080", cachedTime := Minute, lastCached := some (6 + Minute),
          cachedResponse := some payload60000 } :=
  have h := (stale_request_fetches tableLib serverAfterFetch getRequest
    { nowCheck := 5 + Minute, getter := getterOf f60000, nowStore := 6 + Minute,
      writeOk := true }).2 rfl (Or.inr ⟨5, by decide, by decide⟩)
  have h2 := h.2 [{ Pair := BtcUsdPair, Amount := f60000 }] payload60000 rfl (by decide)
  ⟨by decide, h.1, h2.2.2.2 rfl, h2.2.1⟩

/-- C4, counterexample: a server whose entry was stored at clock reading 5 gets a `GET`
at clock reading `5 + ttl`; the fetch and the serialization succeed and `w.Write`
fails. The handler answers through `http.Error(w, "error write response", 500)`, and
the cache is not as it was: it holds the new bytes and the new timestamp. -/
theorem error_answer_after_cache_replaced :
    serverAfterFetch.cachedResponse = some payload50000 ∧
      serverAfterFetch.lastCached = some 5 ∧
      answersError (handlePriceRequest tableLib serverAfterFetch getRequest
        { nowCheck := 5 + Minute, getter := getterOf f60000, nowStore := 6 + Minute,
          writeOk := false }).log = true ∧
      Effect.httpError "error write response" 500 ∈
        (handlePriceRequest tableLib serverAfterFetch getRequest
          { nowCheck := 5 + Minute, getter := getterOf f60000, nowStore := 6 + Minute,
            writeOk := false }).log ∧
      (handlePriceRequest tableLib serverAfterFetch getRequest
        { nowCheck := 5 + Minute, getter := getterOf f60000, nowStore := 6 + Minute,
          writeOk := false }).server.cachedResponse = some payload60000 ∧
      (handlePriceRequest tableLib serverAfterFetch getRequest
        { nowCheck := 5 + Minute, getter := getterOf f60000, nowStore := 6 + Minute,
          writeOk := false }).server.lastCached = some (6 + Minute) := by
  decide

/-- C4 (amended): for every server state, (a) a request whose method is not `GET` is
answered with status 400 and `bad method to get ltp`, by that one action alone: no
`GetLtp` call, no load or store of a cache cell; (b) a `GET` on a miss whose
`GetLtp` call returns an error is answered with status 500 and `error getting ltp`;
(c) a `GET` on a miss whose prices do not marshal, as when an amount is NaN or
infinite, is answered with status 500 and `error marshal json`. In the three cases
the server afterwards is the server before and nothing is written with `w.Write`.
(d) A `GET` on a hit leaves the server as it was, also when its write fails and it
is answered with `error write response`. (e) A `GET` on a miss whose fetch and
serialization succeed and whose write fails is answered with
`error write response` after both cache cells have been replaced. (f) Every request
answered through `http.Error` leaves the server as it was, unless it is the request
of (e). -/
theorem error_answers_keep_cache (lib : Lib) (s : Server) (r : HttpRequest) (env : Env) :
    (r.Method ≠ MethodGet →
      (handlePriceRequest lib s r env).log =
        [Effect.httpError "bad method to get ltp" 400] ∧
      answer (handlePriceRequest lib s r env).log = some ⟨400, "bad method to get ltp"⟩ ∧
      upstreamCalls (handlePriceRequest lib s r env).log = [] ∧
      (handlePriceRequest lib s r env).log.any Effect.isCacheAccess = false ∧
      (handlePriceRequest lib s r env).server = s) ∧
    (r.Method = MethodGet →
      (s.lastCached = none ∨ ∃ t, s.lastCached = some t ∧ s.cachedTime ≤ Sub env.nowCheck t) →
      (∀ res err, env.getter [BtcChfPair, BtcUsdPair, BtcEurPair] =
          GoResult.returned (res, some err) →
        answer (handlePriceRequest lib s r env).log = some ⟨500, "error getting ltp"⟩ ∧
        (handlePriceRequest lib s r env).log.any Effect.isWrite = false ∧
        (handlePriceRequest lib s r env).server = s) ∧
      (∀ res, env.getter [BtcChfPair, BtcUsdPair, BtcEurPair] =
          GoResult.returned (res, none) →
        (Marshal lib { Ltp := res } = none ∨
          ∃ p ∈ res, p.Amount.IsNaN = true ∨ p.Amount.IsInf = true) →
        answer (handlePriceRequest lib s r env).log = some ⟨500, "error marshal json"⟩ ∧
        (handlePriceRequest lib s r env).log.any Effect.isWrite = false ∧
        (handlePriceRequest lib s r env).server = s) ∧
      (∀ res bResp, env.getter [BtcChfPair, BtcUsdPair, BtcEurPair] =
          GoResult.returned (res, none) →
        Marshal lib { Ltp := res } = some bResp → env.writeOk = false →
        answersError (handlePriceRequest lib s r env).log = true ∧
        Effect.httpError "error write response" 500 ∈ (handlePriceRequest lib s r env).log ∧
        (handlePriceRequest lib s r env).server =
          { Addr := s.Addr, cachedTime := s.cachedTime, lastCached := some env.nowStore,
            cachedResponse := some bResp })) ∧
    (r.Method = MethodGet →
      (∃ t, s.lastCached = some t ∧ Sub env.nowCheck t < s.cachedTime) →
      (handlePriceRequest lib s r env).server = s ∧
      (∀ payload, s.cachedResponse = some payload → env.writeOk = false →
        answersError (handlePriceRequest lib s r env).log = true ∧
        Effect.httpError "error write response" 500 ∈
          (handlePriceRequest lib s r env).log)) ∧
    (∀ message code, Effect.httpError message code ∈ (handlePriceRequest lib s r env).log →
      (handlePriceRequest lib s r env).server = s ∨
      (r.Method = MethodGet ∧
        (s.lastCached = none ∨
          ∃ t, s.lastCached = some t ∧ s.cachedTime ≤ Sub env.nowCheck t) ∧
        env.writeOk = false ∧ message = "error write response" ∧
        ∃ res bResp, env.getter [BtcChfPair, BtcUsdPair, BtcEurPair] =
            GoResult.returned (res, none) ∧
          Marshal lib { Ltp := res } = some bResp ∧
          (handlePriceRequest lib s r env).server =
            { Addr := s.Addr, cachedTime := s.cachedTime, lastCached := some env.nowStore,
              cachedResponse := some bResp })) ∧
    (∀ message code, Effect.httpError message code ∈ (handlePriceRequest lib s r env).log →
      message ≠ ErrWriteResponse → (handlePriceRequest lib s r env).server = s) := by
  have key : ∀ message code,
      Effect.httpError message code ∈ (handlePriceRequest lib s r env).log →
      (handlePriceRequest lib s r env).server = s ∨
      (r.Method = MethodGet ∧
        (s.lastCached = none ∨
          ∃ t, s.lastCached = some t ∧ s.cachedTime ≤ Sub env.nowCheck t) ∧
        env.writeOk = false ∧ message = "error write response" ∧
        ∃ res bResp, env.getter [BtcChfPair, BtcUsdPair, BtcEurPair] =
            GoResult.returned (res, none) ∧
          Marshal lib { Ltp := res } = some bResp ∧
          (handlePriceRequest lib s r env).server =
            { Addr := s.Addr, cachedTime := s.cachedTime, lastCached := some env.nowStore,
              cachedResponse := some bResp }) := by
    intro message code hmem
    by_cases hget : r.Method = MethodGet
    · cases hf : (isFresh s env).1 with
      | true => exact Or.inl (handlePriceRequest_hit_server lib s r env hget hf)
      | false =>
        have hmiss := miss_of_isFresh_false s env hf
        rw [handlePriceRequest_miss lib s r env hget hf] at hmem ⊢
        cases hg : env.getter fixedPairs with
        | panicked => exact Or.inl rfl
        | returned v =>
          obtain ⟨res, err⟩ := v
          cases err with
          | some e => exact Or.inl rfl
          | none =>
            cases hm : Marshal lib { Ltp := res } with
            | none =>
              left
              simp [hm]
            | some bResp =>
              right
              rw [hg] at hmem
              simp only [hm] at hmem
              have hpre := isFresh_no_error s env message code
              simp only [List.mem_append, List.mem_cons, List.mem_singleton, List.not_mem_nil,
                or_false, false_or, hpre, reduceCtorEq] at hmem
              unfold writeResponse at hmem
              split at hmem
              · simp at hmem
              · rename_i hw
                simp at hmem
                refine ⟨hget, hmiss, by simpa using hw, by simp [hmem.1, ErrWriteResponse],
                  res, bResp, hg, hm, ?_⟩
                simp [hm]
    · rw [handlePriceRequest_bad_method lib s r env hget]
      exact Or.inl rfl
  refine ⟨?_, ?_, ?_, key, ?_⟩
  · intro hm
    rw [handlePriceRequest_bad_method lib s r env hm]
    exact ⟨rfl, rfl, rfl, rfl, rfl⟩
  · intro hget hmiss
    have hf := isFresh_false_of_miss s env hmiss
    have hq := isFresh_log_quiet s env
    rw [handlePriceRequest_miss lib s r env hget hf]
    refine ⟨?_, ?_, ?_⟩
    · intro res err hg
      have hg1 : env.getter fixedPairs = GoResult.returned (res, some err) := hg
      rw [hg1]
      refine ⟨?_, ?_, rfl⟩
      · exact answer_of_error _ _ _ (by simp [List.filter_append, hq.2.1, Effect.isOutput])
      · simp [hq.2.2, Effect.isWrite]
    · intro res hg hbad
      have hg1 : env.getter fixedPairs = GoResult.returned (res, none) := hg
      have hm : Marshal lib { Ltp := res } = none := by
        rcases hbad with h | h
        · exact h
        · exact Marshal_eq_none lib res h
      rw [hg1]
      simp only [hm]
      refine ⟨?_, ?_, trivial⟩
      · exact answer_of_error _ _ _ (by simp [List.filter_append, hq.2.1, Effect.isOutput])
      · simp [hq.2.2, Effect.isWrite]
    · intro res bResp hg hm hw
      have hg1 : env.getter fixedPairs = GoResult.returned (res, none) := hg
      rw [hg1]
      simp only [hm]
      refine ⟨?_, ?_, trivial⟩
      · simp [answersError, writeResponse, hw, Effect.isHttpError]
      · simp [writeResponse, hw, ErrWriteResponse, StatusInternalServerError]
  · intro hget hfresh
    have hf := (isFresh_true_iff s env).2 hfresh
    refine ⟨handlePriceRequest_hit_server lib s r env hget hf, ?_⟩
    intro payload hp hw
    obtain ⟨t, ht, hlt⟩ := hfresh
    obtain ⟨hlog, _, _⟩ := handlePriceRequest_hit lib s r env t payload hget ht hlt hp
    rw [hlog]
    constructor
    · simp [answersError, writeResponse, hw, Effect.isHttpError]
    · simp [writeResponse, hw, ErrWriteResponse, StatusInternalServerError]
  · intro message code hmem hne
    rcases key message code hmem with h | ⟨_, _, _, hmsg, _⟩
    · exact h
    · exact absurd (by simp [hmsg, ErrWriteResponse]) hne

/-- C4 (amended), at concrete inputs, on the server whose entry was stored at clock
reading 5: a `POST`; a `GET` at clock reading `5 + ttl` whose price getter returns
an error; such a `GET` whose price getter returns an amount that is NaN; and a `GET`
at clock reading 6 whose write fails. Each is answered with its error and the server
is left as it was. -/
theorem error_answers_keep_cache_witness :
    (answer (handlePriceRequest tableLib serverAfterFetch postRequest
        { nowCheck := 6, getter := getterOf f60000, nowStore := 7, writeOk := true }).log =
        some ⟨400, "bad method to get ltp"⟩ ∧
      (handlePriceRequest tableLib serverAfterFetch postRequest
        { nowCheck := 6, getter := getterOf f60000, nowStore := 7, writeOk := true }).server =
        serverAfterFetch) ∧
    (answer (handlePriceRequest tableLib serverAfterFetch getRequest
        { nowCheck := 5 + Minute, getter := getterFailing, nowStore := 6 + Minute,
          writeOk := true }).log = some ⟨500, "error getting ltp"⟩ ∧
      (handlePriceRequest tableLib serverAfterFetch getRequest
        { nowCheck := 5 + Minute, getter := getterFailing, nowStore := 6 + Minute,
          writeOk := true }).server = serverAfterFetch) ∧
    (answer (handlePriceRequest tableLib serverAfterFetch getRequest
        { nowCheck := 5 + Minute, getter := getterOf fNaN, nowStore := 6 + Minute,
          writeOk := true }).log = some ⟨500, "error marshal json"⟩ ∧
      (handlePriceRequest tableLib serverAfterFetch getRequest
        { nowCheck := 5 + Minute, getter := getterOf fNaN, nowStore := 6 + Minute,
          writeOk := true }).server = serverAfterFetch) ∧
    (Effect.httpError "error write response" 500 ∈
        (handlePriceRequest tableLib serverAfterFetch getRequest
          { nowCheck := 6, getter := getterOf f60000, nowStore := 7, writeOk := false }).log ∧
      (handlePriceRequest tableLib serverAfterFetch getRequest
        { nowCheck := 6, getter := getterOf f60000, nowStore := 7, writeOk := false }).server =
        serverAfterFetch) :=
  have ha := (error_answers_keep_cache tableLib serverAfterFetch postRequest
    { nowCheck := 6, getter := getterOf f60000, nowStore := 7, writeOk := true }).1
    (by decide)
  have hb := ((error_answers_keep_cache tableLib serverAfterFetch getRequest
    { nowCheck := 5 + Minute, getter := getterFailing, nowStore := 6 + Minute,
      writeOk := true }).2.1 rfl (Or.inr ⟨5, by decide, by decide⟩)).1 [] "some error" rfl
  have hc := ((error_answers_keep_cache tableLib serverAfterFetch getRequest
    { nowCheck := 5 + Minute, getter := getterOf fNaN, nowStore := 6 + Minute,
      writeOk := true }).2.1 rfl (Or.inr ⟨5, by decide, by decide⟩)).2.1
    [{ Pair := BtcUsdPair, Amount := fNaN }] rfl
    (Or.inr ⟨{ Pair := BtcUsdPair, Amount := fNaN }, by simp, Or.inl (by decide)⟩)
  have hd := (error_answers_keep_cache tableLib serverAfterFetch getRequest
    { nowCheck := 6, getter := getterOf f60000, nowStore := 7, writeOk := false }).2.2.1 rfl
    ⟨5, by decide, by decide⟩
  ⟨⟨ha.2.1, ha.2.2.2.2⟩, ⟨hb.1, hb.2.2⟩, ⟨hc.1, hc.2.2⟩,
    ⟨(hd.2 payload50000 (by decide) rfl).2, hd.1⟩⟩

/-! ## Handlers running concurrently: lemmas -/

theorem step_terminal (lib : Lib) (ttl : Duration) (id : Nat) (task : Task) (sh : Shared)
    (l : Local) (h : l.pc = Pc.done ∨ l.pc = Pc.panicked) (n : Nat) :
    (stepPair lib ttl id task)^[n] (sh, l) = (sh, l) := by
  induction n with
  | zero => rfl
  | succ n ih =>
    rw [Function.iterate_succ, Function.comp_apply]
    have h1 : stepPair lib ttl id task (sh, l) = (sh, l) := by
      rcases h with h | h <;> simp [stepPair, step, h]
    rw [h1, ih]

/-- A handler run on its own from its start, on a cache that holds a whole entry or
none: it ends, the cache again holds a whole entry or none, and the handler has not
observed a torn entry. -/
theorem handler_alone (lib : Lib) (ttl : Duration) (id : Nat) (task : Task) (sh : Shared)
    (hsh : sh.whole) :
    ((stepPair lib ttl id task)^[handlerSteps] (sh, Local.start)).1.whole ∧
      (((stepPair lib ttl id task)^[handlerSteps] (sh, Local.start)).2.pc = Pc.done ∨
        ((stepPair lib ttl id task)^[handlerSteps] (sh, Local.start)).2.pc = Pc.panicked) ∧
      ((stepPair lib ttl id task)^[handlerSteps] (sh, Local.start)).2.torn = false := by
  simp only [handlerSteps, Function.iterate_succ, Function.iterate_zero, Function.comp_apply,
    id_eq]
  by_cases hm : task.request.Method = MethodGet
  · rcases hsh with ⟨h1, h2⟩ | ⟨t, b, k, h1, h2⟩
    · cases hg : task.env.getter [BtcChfPair, BtcUsdPair, BtcEurPair] with
      | panicked =>
        simp [stepPair, step, Local.start, hm, h1, h2, hg, Shared.whole, Local.torn]
      | returned v =>
        obtain ⟨res, err⟩ := v
        cases err with
        | some e =>
          simp [stepPair, step, Local.start, hm, h1, h2, hg, Shared.whole, Local.torn]
        | none =>
          cases hmar : Marshal lib { Ltp := res } with
          | none =>
            simp [stepPair, step, Local.start, hm, h1, h2, hg, hmar, Shared.whole, Local.torn]
          | some bResp =>
            simp [stepPair, step, Local.start, hm, h1, h2, hg, hmar, Shared.whole, Local.torn]
    · by_cases hfr : Sub task.env.nowCheck t < ttl
      · simp [stepPair, step, Local.start, hm, h1, h2, hfr, Shared.whole, Local.torn]
      · cases hg : task.env.getter [BtcChfPair, BtcUsdPair, BtcEurPair] with
        | panicked =>
          simp [stepPair, step, Local.start, hm, h1, h2, hfr, hg, Shared.whole, Local.torn]
        | returned v =>
          obtain ⟨res, err⟩ := v
          cases err with
          | some e =>
            simp [stepPair, step, Local.start, hm, h1, h2, hfr, hg, Shared.whole, Local.torn]
          | none =>
            cases hmar : Marshal lib { Ltp := res } with
            | none =>
              simp [stepPair, step, Local.start, hm, h1, h2, hfr, hg, hmar, Shared.whole,
                Local.torn]
            | some bResp =>
              simp [stepPair, step, Local.start, hm, h1, h2, hfr, hg, hmar, Shared.whole,
                Local.torn]
  · simp [stepPair, step, Local.start, hm, Local.torn]
    exact hsh

/-- Steps of one handler in a row touch the cache cells and that handler only. -/
theorem iterate_stepAt (lib : Lib) (ttl : Duration) (tasks : Nat → Task) (i n : Nat)
    (c : Config) :
    (fun c => Config.stepAt lib ttl tasks c i)^[n] c =
      ⟨((stepPair lib ttl i (tasks i))^[n] (c.shared, c.locals i)).1,
        Function.update c.locals i
          ((stepPair lib ttl i (tasks i))^[n] (c.shared, c.locals i)).2⟩ := by
  induction n generalizing c with
  | zero =>
    cases c
    simp
  | succ n ih =>
    rw [Function.iterate_succ, Function.comp_apply, ih, Function.iterate_succ,
      Function.comp_apply]
    simp [Config.stepAt, stepPair]

theorem run_replicate (lib : Lib) (ttl : Duration) (tasks : Nat → Task) (i n : Nat)
    (c : Config) :
    Config.run lib ttl tasks c (List.replicate n i) =
      (fun c => Config.stepAt lib ttl tasks c i)^[n] c := by
  induction n generalizing c with
  | zero => rfl
  | succ n ih =>
    rw [List.replicate_succ, Function.iterate_succ, Function.comp_apply]
    exact ih _

theorem run_append (lib : Lib) (ttl : Duration) (tasks : Nat → Task) (c : Config)
    (a b : List Nat) :
    Config.run lib ttl tasks c (a ++ b) =
      Config.run lib ttl tasks (Config.run lib ttl tasks c a) b := by
  simp [Config.run, List.foldl_append]

/-- One handler run from start to end keeps the cache whole and every handler settled. -/
theorem run_one_settled (lib : Lib) (ttl : Duration) (tasks : Nat → Task) (i : Nat)
    (c : Config) (hsh : c.shared.whole) (hl : ∀ j, (c.locals j).settled) :
    (Config.run lib ttl tasks c (List.replicate handlerSteps i)).shared.whole ∧
      ∀ j, ((Config.run lib ttl tasks c (List.replicate handlerSteps i)).locals j).settled := by
  rw [run_replicate, iterate_stepAt]
  rcases hl i with hstart | ⟨hend, htorn⟩
  · rw [hstart]
    obtain ⟨h1, h2, h3⟩ := handler_alone lib ttl i (tasks i) c.shared hsh
    refine ⟨h1, fun j => ?_⟩
    by_cases hj : j = i
    · subst hj
      simp only [Function.update_same]
      exact Or.inr ⟨h2, h3⟩
    · simp only [Function.update_noteq hj]
      exact hl j
  · rw [step_terminal lib ttl i (tasks i) c.shared (c.locals i) hend]
    refine ⟨hsh, fun j => ?_⟩
    by_cases hj : j = i
    · subst hj
      simp only [Function.update_same]
      exact Or.inr ⟨hend, htorn⟩
    · simp only [Function.update_noteq hj]
      exact hl j

theorem run_serial_settled (lib : Lib) (ttl : Duration) (tasks : Nat → Task)
    (order : List Nat) (c : Config) (hsh : c.shared.whole) (hl : ∀ j, (c.locals j).settled) :
    (Config.run lib ttl tasks c (serialSchedule order)).shared.whole ∧
      ∀ j, ((Config.run lib ttl tasks c (serialSchedule order)).locals j).settled := by
  induction order generalizing c with
  | nil => exact ⟨hsh, hl⟩
  | cons i rest ih =>
    have hs : serialSchedule (i :: rest) =
        List.replicate handlerSteps i ++ serialSchedule rest := by
      simp [serialSchedule]
    rw [hs, run_append]
    obtain ⟨h1, h2⟩ := run_one_settled lib ttl tasks i c hsh hl
    exact ih _ h1 h2

theorem Shared.whole_not_torn (sh : Shared) (h : sh.whole) : sh.torn = false := by
  rcases h with ⟨h1, h2⟩ | ⟨t, b, k, h1, h2⟩
  · simp [Shared.torn, h1]
  · simp [Shared.torn, h1, h2]

theorem Local.settled_not_torn (l : Local) (h : l.settled) : l.torn = false := by
  rcases h with h | ⟨_, h⟩
  · rw [h]
    rfl
  · exact h

theorem map_fst_tag {α : Type} (k : Nat) (o : Option α) :
    Option.map (Prod.fst ∘ fun b => (b, k)) o = o := by
  cases o <;> rfl

/-- The steps agree with the handler run on its own: from the cache cells of a server,
nine steps of one handler produce the log of `handlePriceRequest`, leave in the
cells what it leaves in the server, and end in a panic exactly when it does. -/
theorem handler_alone_agrees (lib : Lib) (s : Server) (r : HttpRequest) (env : Env)
    (id k : Nat) :
    ((stepPair lib s.cachedTime id ⟨r, env⟩)^[handlerSteps]
        (Shared.ofServer s k, Local.start)).2.log = (handlePriceRequest lib s r env).log ∧
      ((stepPair lib s.cachedTime id ⟨r, env⟩)^[handlerSteps]
        (Shared.ofServer s k, Local.start)).1.lastCached.map Prod.fst =
        (handlePriceRequest lib s r env).server.lastCached ∧
      ((stepPair lib s.cachedTime id ⟨r, env⟩)^[handlerSteps]
        (Shared.ofServer s k, Local.start)).1.cachedResponse.map Prod.fst =
        (handlePriceRequest lib s r env).server.cachedResponse ∧
      (((stepPair lib s.cachedTime id ⟨r, env⟩)^[handlerSteps]
        (Shared.ofServer s k, Local.start)).2.pc = Pc.panicked ↔
        (handlePriceRequest lib s r env).panicked = true) := by
  simp only [handlerSteps, Function.iterate_succ, Function.iterate_zero, Function.comp_apply,
    id_eq]
  by_cases hm : r.Method = MethodGet
  · cases h1 : s.lastCached with
    | none =>
      cases hg : env.getter [BtcChfPair, BtcUsdPair, BtcEurPair] with
      | panicked =>
        simp [stepPair, step, Local.start, Shared.ofServer, handlePriceRequest, isFresh, map_fst_tag, hm, h1,
          hg]
      | returned v =>
        obtain ⟨res, err⟩ := v
        cases err with
        | some e =>
          simp [stepPair, step, Local.start, Shared.ofServer, handlePriceRequest, isFresh, map_fst_tag, hm,
            h1, hg]
        | none =>
          cases hmar : Marshal lib { Ltp := res } with
          | none =>
            simp [stepPair, step, Local.start, Shared.ofServer, handlePriceRequest, isFresh, map_fst_tag, hm,
              h1, hg, hmar]
          | some bResp =>
            simp [stepPair, step, Local.start, Shared.ofServer, handlePriceRequest, isFresh, map_fst_tag, hm,
              h1, hg, hmar]
    | some t =>
      by_cases hfr : Sub env.nowCheck t < s.cachedTime
      · cases h2 : s.cachedResponse with
        | none =>
          simp [stepPair, step, Local.start, Shared.ofServer, handlePriceRequest, isFresh, map_fst_tag, hm,
            h1, h2, hfr]
        | some cached =>
          simp [stepPair, step, Local.start, Shared.ofServer, handlePriceRequest, isFresh, map_fst_tag, hm,
            h1, h2, hfr]
      · cases hg : env.getter [BtcChfPair, BtcUsdPair, BtcEurPair] with
        | panicked =>
          simp [stepPair, step, Local.start, Shared.ofServer, handlePriceRequest, isFresh, map_fst_tag, hm,
            h1, hfr, hg]
        | returned v =>
          obtain ⟨res, err⟩ := v
          cases err with
          | some e =>
            simp [stepPair, step, Local.start, Shared.ofServer, handlePriceRequest, isFresh, map_fst_tag, hm,
              h1, hfr, hg]
          | none =>
            cases hmar : Marshal lib { Ltp := res } with
            | none =>
              simp [stepPair, step, Local.start, Shared.ofServer, handlePriceRequest, isFresh, map_fst_tag,
                hm, h1, hfr, hg, hmar]
            | some bResp =>
              simp [stepPair, step, Local.start, Shared.ofServer, handlePriceRequest, isFresh, map_fst_tag,
                hm, h1, hfr, hg, hmar]
  · simp [stepPair, step, Local.start, Shared.ofServer, handlePriceRequest, map_fst_tag, hm]

/-! ## Interleavings without a race on the cache: lemmas -/

theorem Local.torn_eq (l l' : Local) (h1 : l'.seenTime = l.seenTime)
    (h2 : l'.seenPayload = l.seenPayload) : l'.torn = l.torn := by
  simp [Local.torn, h1, h2]

theorem Local.torn_of_unseen (l : Local) (h : l.seenPayload = none) : l.torn = false := by
  unfold Local.torn
  rw [h]
  cases l.seenTime <;> rfl

theorem Config.stepAt_eq (lib : Lib) (ttl : Duration) (tasks : Nat → Task) (c : Config)
    (i : Nat) (sh : Shared) (l : Local)
    (h : step lib ttl i (tasks i) c.shared (c.locals i) = (sh, l)) :
    c.stepAt lib ttl tasks i = ⟨sh, Function.update c.locals i l⟩ := by
  simp [Config.stepAt, h]

theorem Config.safeStep_lt (n : Nat) (c : Config) (i : Nat) (h : c.safeStep n i = true) :
    i < n := by
  simp only [Config.safeStep, Bool.and_eq_true, decide_eq_true_eq] at h
  exact h.1

theorem Config.safeStep_store (n : Nat) (c : Config) (i : Nat) (b : String)
    (h : c.safeStep n i = true) (hpc : (c.locals i).pc = Pc.storePayload b) :
    ∀ j, j < n → j ≠ i →
      (c.locals j).pc.midPublish = false ∧ (c.locals j).pc.midRead = false := by
  intro j hj hne
  simp only [Config.safeStep, hpc, Bool.and_eq_true, decide_eq_true_eq, List.all_eq_true,
    List.mem_range, Bool.or_eq_true, beq_iff_eq, Bool.not_eq_true', Bool.or_eq_false_iff] at h
  rcases h.2 j hj with h1 | h1
  · exact absurd h1 hne
  · exact h1

theorem Config.safeStep_load (n : Nat) (c : Config) (i : Nat) (now : Time)
    (h : c.safeStep n i = true) (hpc : (c.locals i).pc = Pc.loadTime now) :
    ∀ j, j < n → j ≠ i → (c.locals j).pc.midPublish = false := by
  intro j hj hne
  simp only [Config.safeStep, hpc, Bool.and_eq_true, decide_eq_true_eq, List.all_eq_true,
    List.mem_range, Bool.or_eq_true, beq_iff_eq, Bool.not_eq_true'] at h
  rcases h.2 j hj with h1 | h1
  · exact absurd h1 hne
  · exact h1

/-- A step that is neither a load of the hit path nor a store leaves the cache cells
and what the handler has seen as they were, does not enter the window between the
two loads, and neither enters nor leaves the window between the two stores. -/
theorem step_local (lib : Lib) (ttl : Duration) (id : Nat) (task : Task) (sh : Shared)
    (l : Local) (h1 : ∀ now, l.pc ≠ Pc.loadTime now) (h2 : l.pc ≠ Pc.loadPayload)
    (h3 : ∀ b, l.pc ≠ Pc.storePayload b) (h4 : ∀ b now, l.pc ≠ Pc.storeTime b now) :
    (step lib ttl id task sh l).1 = sh ∧
      (step lib ttl id task sh l).2.seenTime = l.seenTime ∧
      (step lib ttl id task sh l).2.seenPayload = l.seenPayload ∧
      (step lib ttl id task sh l).2.pc ≠ Pc.loadPayload ∧
      (step lib ttl id task sh l).2.pc.midPublish = l.pc.midPublish ∧
      (l.pc = Pc.done → (step lib ttl id task sh l).2.pc = Pc.done) := by
  cases hpc : l.pc with
  | checkMethod =>
    unfold step
    simp only [hpc]
    split <;> simp [Pc.midPublish]
  | loadNil =>
    unfold step
    simp only [hpc]
    split <;> simp [Pc.midPublish]
  | readClock => simp [step, hpc, Pc.midPublish]
  | loadTime now => exact absurd hpc (h1 now)
  | loadPayload => exact absurd hpc h2
  | fetch =>
    unfold step
    simp only [hpc]
    split
    · simp [Pc.midPublish]
    · simp [Pc.midPublish]
    · split <;> simp [Pc.midPublish]
  | storePayload b => exact absurd hpc (h3 b)
  | readClockStore b => simp [step, hpc, Pc.midPublish]
  | storeTime b now => exact absurd hpc (h4 b now)
  | respond b => simp [step, hpc, Pc.midPublish]
  | done => simp [step, hpc]
  | panicked => simp [step, hpc, Pc.midPublish]

/-- A handler moves on without touching the cache cells, without entering the window
between the two loads and without entering or leaving the window between the two
stores, and has still observed no torn entry: the configuration stays sound. -/
theorem Config.Sound.local_step (n : Nat) (c : Config) (i : Nat) (l : Local)
    (h : c.Sound n) (hi : i < n)
    (h1 : l.pc ≠ Pc.done → l.seenPayload = none) (h2 : l.torn = false)
    (h3 : l.pc ≠ Pc.loadPayload) (h4 : l.pc.midPublish = (c.locals i).pc.midPublish) :
    Config.Sound n ⟨c.shared, Function.update c.locals i l⟩ := by
  have hmid : ∀ j, (Function.update c.locals i l j).pc.midPublish =
      (c.locals j).pc.midPublish := by
    intro j
    by_cases hj : j = i
    · subst hj
      simp [h4]
    · simp [Function.update_noteq hj]
  have hread : ∀ j, (Function.update c.locals i l j).pc = Pc.loadPayload →
      j ≠ i ∧ (c.locals j).pc = Pc.loadPayload := by
    intro j hj
    by_cases hji : j = i
    · subst hji
      simp only [Function.update_same] at hj
      exact absurd hj h3
    · simp only [Function.update_noteq hji] at hj
      exact ⟨hji, hj⟩
  refine ⟨?_, ?_, ?_, ?_, ?_, ?_, ?_⟩
  · intro j hj
    have hji : j ≠ i := fun e => absurd hi (not_lt.2 (e ▸ hj))
    simp only [Function.update_noteq hji]
    exact h.idle j hj
  · intro j
    by_cases hji : j = i
    · subst hji
      simpa using h1
    · simp only [Function.update_noteq hji]
      exact h.unseen j
  · intro j
    by_cases hji : j = i
    · subst hji
      simpa using h2
    · simp only [Function.update_noteq hji]
      exact h.untorn j
  · intro j hj
    obtain ⟨hji, hj'⟩ := hread j hj
    simp only [Function.update_noteq hji]
    exact h.reading j hj'
  · intro j k hj hk
    rw [hmid] at hj hk
    exact h.one_writer j k hj hk
  · intro j hj
    rw [hmid] at hj
    obtain ⟨hb, hk⟩ := h.writing j hj
    refine ⟨hb, fun k hk' => ?_⟩
    exact hk k (hread k hk').2
  · intro hq
    exact h.quiet (fun j => by rw [← hmid]; exact hq j)

/-- A step that is neither a load of the hit path nor a store keeps the configuration
sound. -/
theorem Config.Sound.step_free (lib : Lib) (ttl : Duration) (tasks : Nat → Task) (n : Nat)
    (c : Config) (i : Nat) (h : c.Sound n) (hi : i < n)
    (h1 : ∀ now, (c.locals i).pc ≠ Pc.loadTime now) (h2 : (c.locals i).pc ≠ Pc.loadPayload)
    (h3 : ∀ b, (c.locals i).pc ≠ Pc.storePayload b)
    (h4 : ∀ b now, (c.locals i).pc ≠ Pc.storeTime b now) :
    (c.stepAt lib ttl tasks i).Sound n := by
  obtain ⟨e1, e2, e3, e4, e5, e6⟩ :=
    step_local lib ttl i (tasks i) c.shared (c.locals i) h1 h2 h3 h4
  have hcfg : c.stepAt lib ttl tasks i =
      ⟨c.shared, Function.update c.locals i
        (LtpServer.step lib ttl i (tasks i) c.shared (c.locals i)).2⟩ := by
    simp [Config.stepAt, e1]
  rw [hcfg]
  refine Config.Sound.local_step n c i _ h hi ?_ ?_ e4 e5
  · intro hne
    rw [e3]
    exact h.unseen i (fun hd => hne (e6 hd))
  · rw [Local.torn_eq _ _ e2 e3]
    exact h.untorn i

/-- One step without a race keeps the configuration sound. -/
theorem Config.Sound.step (lib : Lib) (ttl : Duration) (tasks : Nat → Task) (n : Nat)
    (c : Config) (i : Nat) (h : c.Sound n) (hs : c.safeStep n i = true) :
    (c.stepAt lib ttl tasks i).Sound n := by
  have hi := Config.safeStep_lt n c i hs
  have hstart : ∀ j, n ≤ j → (c.locals j).pc = Pc.checkMethod := by
    intro j hj
    rw [h.idle j hj]
    rfl
  cases hpc : (c.locals i).pc with
  | loadTime now =>
    have hquiet : ∀ j, (c.locals j).pc.midPublish = false := by
      intro j
      by_cases hji : j = i
      · subst hji
        simp [hpc, Pc.midPublish]
      · by_cases hjn : j < n
        · exact Config.safeStep_load n c i now hs hpc j hjn hji
        · simp [hstart j (not_lt.1 hjn), Pc.midPublish]
    have hun := h.unseen i (by simp [hpc])
    cases hlc : c.shared.lastCached with
    | none =>
      rw [Config.stepAt_eq lib ttl tasks c i c.shared
        { c.locals i with pc := Pc.panicked, log := (c.locals i).log ++ [Effect.loadLastCached] }
        (by simp [LtpServer.step, hpc, hlc])]
      exact Config.Sound.local_step n c i _ h hi (fun _ => hun)
        (Local.torn_of_unseen _ hun) (by simp) (by simp [hpc, Pc.midPublish])
    | some v =>
      obtain ⟨t, k⟩ := v
      by_cases hfr : Sub now t < ttl
      · rw [Config.stepAt_eq lib ttl tasks c i c.shared
          { c.locals i with pc := Pc.loadPayload,
                            log := (c.locals i).log ++ [Effect.loadLastCached],
                            seenTime := some (t, k) }
          (by simp [LtpServer.step, hpc, hlc, hfr])]
        have hmid : ∀ j, (Function.update c.locals i
            { c.locals i with pc := Pc.loadPayload,
                              log := (c.locals i).log ++ [Effect.loadLastCached],
                              seenTime := some (t, k) } j).pc.midPublish = false := by
          intro j
          by_cases hji : j = i
          · subst hji
            simp [Pc.midPublish]
          · simp only [Function.update_noteq hji]
            exact hquiet j
        refine ⟨?_, ?_, ?_, ?_, ?_, ?_, ?_⟩
        · intro j hj
          have hji : j ≠ i := fun e => absurd hi (not_lt.2 (e ▸ hj))
          simp only [Function.update_noteq hji]
          exact h.idle j hj
        · intro j
          by_cases hji : j = i
          · subst hji
            simp [hun]
          · simp only [Function.update_noteq hji]
            exact h.unseen j
        · intro j
          by_cases hji : j = i
          · subst hji
            simp only [Function.update_same]
            exact Local.torn_of_unseen _ hun
          · simp only [Function.update_noteq hji]
            exact h.untorn j
        · intro j hj
          by_cases hji : j = i
          · subst hji
            simp [hlc]
          · simp only [Function.update_noteq hji] at hj ⊢
            exact h.reading j hj
        · intro j k hj
          rw [hmid j] at hj
          cases hj
        · intro j hj
          rw [hmid j] at hj
          cases hj
        · intro _
          exact h.quiet hquiet
      · rw [Config.stepAt_eq lib ttl tasks c i c.shared
          { c.locals i with pc := Pc.fetch, log := (c.locals i).log ++ [Effect.loadLastCached] }
          (by simp [LtpServer.step, hpc, hlc, hfr])]
        exact Config.Sound.local_step n c i _ h hi (fun _ => hun)
          (Local.torn_of_unseen _ hun) (by simp) (by simp [hpc, Pc.midPublish])
  | loadPayload =>
    have hquiet : ∀ j, (c.locals j).pc.midPublish = false := by
      intro j
      cases hm : (c.locals j).pc.midPublish with
      | false => rfl
      | true => exact absurd hpc ((h.writing j hm).2 i)
    have hwhole := h.quiet hquiet
    have hseen := h.reading i hpc
    have hun := h.unseen i (by simp [hpc])
    cases hcr : c.shared.cachedResponse with
    | none =>
      rw [Config.stepAt_eq lib ttl tasks c i c.shared
        { c.locals i with pc := Pc.panicked,
                          log := (c.locals i).log ++ [Effect.loadCachedResponse] }
        (by simp [LtpServer.step, hpc, hcr])]
      exact Config.Sound.local_step n c i _ h hi (fun _ => hun)
        (Local.torn_of_unseen _ hun) (by simp) (by simp [hpc, Pc.midPublish])
    | some v =>
      obtain ⟨cached, k⟩ := v
      rw [Config.stepAt_eq lib ttl tasks c i c.shared
        { c.locals i with pc := Pc.done,
                          log := (c.locals i).log ++ [Effect.loadCachedResponse] ++
                            writeResponse (tasks i).env cached,
                          seenPayload := some (cached, k) }
        (by simp [LtpServer.step, hpc, hcr])]
      refine Config.Sound.local_step n c i _ h hi (by simp) ?_ (by simp)
        (by simp [hpc, Pc.midPublish])
      rcases hwhole with ⟨h1, h2⟩ | ⟨t, b, k', h1, h2⟩
      · rw [hcr] at h2
        cases h2
      · rw [hcr] at h2
        cases h2
        simp [Local.torn, hseen, h1]
  | storePayload b =>
    have hothers : ∀ j, j ≠ i →
        (c.locals j).pc.midPublish = false ∧ (c.locals j).pc ≠ Pc.loadPayload := by
      intro j hji
      by_cases hjn : j < n
      · obtain ⟨h1, h2⟩ := Config.safeStep_store n c i b hs hpc j hjn hji
        refine ⟨h1, fun e => ?_⟩
        rw [e] at h2
        cases h2
      · simp [hstart j (not_lt.1 hjn), Pc.midPublish]
    have hun := h.unseen i (by simp [hpc])
    rw [Config.stepAt_eq lib ttl tasks c i { c.shared with cachedResponse := some (b, i) }
      { c.locals i with pc := Pc.readClockStore b,
                        log := (c.locals i).log ++ [Effect.storeCachedResponse b] }
      (by simp [LtpServer.step, hpc])]
    refine ⟨?_, ?_, ?_, ?_, ?_, ?_, ?_⟩
    · intro j hj
      have hji : j ≠ i := fun e => absurd hi (not_lt.2 (e ▸ hj))
      simp only [Function.update_noteq hji]
      exact h.idle j hj
    · intro j
      by_cases hji : j = i
      · subst hji
        simp [hun]
      · simp only [Function.update_noteq hji]
        exact h.unseen j
    · intro j
      by_cases hji : j = i
      · subst hji
        simp only [Function.update_same]
        exact Local.torn_of_unseen _ hun
      · simp only [Function.update_noteq hji]
        exact h.untorn j
    · intro j hj
      by_cases hji : j = i
      · subst hji
        simp at hj
      · simp only [Function.update_noteq hji] at hj
        exact absurd hj (hothers j hji).2
    · intro j k hj hk
      have hj' : j = i := by
        by_contra hji
        simp only [Function.update_noteq hji] at hj
        rw [(hothers j hji).1] at hj
        cases hj
      have hk' : k = i := by
        by_contra hki
        simp only [Function.update_noteq hki] at hk
        rw [(hothers k hki).1] at hk
        cases hk
      rw [hj', hk']
    · intro j hj
      have hj' : j = i := by
        by_contra hji
        simp only [Function.update_noteq hji] at hj
        rw [(hothers j hji).1] at hj
        cases hj
      subst hj'
      refine ⟨⟨b, rfl⟩, fun k hk => ?_⟩
      by_cases hkj : k = j
      · subst hkj
        simp at hk
      · simp only [Function.update_noteq hkj] at hk
        exact (hothers k hkj).2 hk
    · intro hq
      have := hq i
      simp [Pc.midPublish] at this
  | storeTime b now =>
    have hmid : (c.locals i).pc.midPublish = true := by simp [hpc, Pc.midPublish]
    obtain ⟨⟨b', hb'⟩, hnoread⟩ := h.writing i hmid
    have hothers : ∀ j, j ≠ i → (c.locals j).pc.midPublish = false := by
      intro j hji
      cases hm : (c.locals j).pc.midPublish with
      | false => rfl
      | true => exact absurd (h.one_writer j i hm hmid) hji
    have hun := h.unseen i (by simp [hpc])
    rw [Config.stepAt_eq lib ttl tasks c i { c.shared with lastCached := some (now, i) }
      { c.locals i with pc := Pc.respond b,
                        log := (c.locals i).log ++ [Effect.storeLastCached now] }
      (by simp [LtpServer.step, hpc])]
    have hnomid : ∀ j, (Function.update c.locals i
        { c.locals i with pc := Pc.respond b,
                          log := (c.locals i).log ++ [Effect.storeLastCached now] } j).pc.midPublish
          = false := by
      intro j
      by_cases hji : j = i
      · subst hji
        simp [Pc.midPublish]
      · simp only [Function.update_noteq hji]
        exact hothers j hji
    refine ⟨?_, ?_, ?_, ?_, ?_, ?_, ?_⟩
    · intro j hj
      have hji : j ≠ i := fun e => absurd hi (not_lt.2 (e ▸ hj))
      simp only [Function.update_noteq hji]
      exact h.idle j hj
    · intro j
      by_cases hji : j = i
      · subst hji
        simp [hun]
      · simp only [Function.update_noteq hji]
        exact h.unseen j
    · intro j
      by_cases hji : j = i
      · subst hji
        simp only [Function.update_same]
        exact Local.torn_of_unseen _ hun
      · simp only [Function.update_noteq hji]
        exact h.untorn j
    · intro j hj
      by_cases hji : j = i
      · subst hji
        simp at hj
      · simp only [Function.update_noteq hji] at hj
        exact absurd hj (hnoread j)
    · intro j k hj
      rw [hnomid j] at hj
      cases hj
    · intro j hj
      rw [hnomid j] at hj
      cases hj
    · intro _
      exact Or.inr ⟨now, b', i, rfl, hb'⟩
  | checkMethod => exact Config.Sound.step_free lib ttl tasks n c i h hi (by simp [hpc]) (by simp [hpc]) (by simp [hpc]) (by simp [hpc])
  | loadNil => exact Config.Sound.step_free lib ttl tasks n c i h hi (by simp [hpc]) (by simp [hpc]) (by simp [hpc]) (by simp [hpc])
  | readClock => exact Config.Sound.step_free lib ttl tasks n c i h hi (by simp [hpc]) (by simp [hpc]) (by simp [hpc]) (by simp [hpc])
  | fetch => exact Config.Sound.step_free lib ttl tasks n c i h hi (by simp [hpc]) (by simp [hpc]) (by simp [hpc]) (by simp [hpc])
  | readClockStore b => exact Config.Sound.step_free lib ttl tasks n c i h hi (by simp [hpc]) (by simp [hpc]) (by simp [hpc]) (by simp [hpc])
  | respond b => exact Config.Sound.step_free lib ttl tasks n c i h hi (by simp [hpc]) (by simp [hpc]) (by simp [hpc]) (by simp [hpc])
  | done => exact Config.Sound.step_free lib ttl tasks n c i h hi (by simp [hpc]) (by simp [hpc]) (by simp [hpc]) (by simp [hpc])
  | panicked => exact Config.Sound.step_free lib ttl tasks n c i h hi (by simp [hpc]) (by simp [hpc]) (by simp [hpc]) (by simp [hpc])

theorem Config.Sound.cold (n : Nat) : Config.cold.Sound n := by
  refine ⟨fun _ _ => rfl, fun _ _ => rfl, fun _ => rfl, ?_, ?_, ?_, fun _ => Or.inl ⟨rfl, rfl⟩⟩
  · intro j hj
    cases hj
  · intro j k hj
    cases hj
  · intro j hj
    cases hj

theorem Config.raceFree_sound (lib : Lib) (ttl : Duration) (tasks : Nat → Task) (n : Nat)
    (schedule : List Nat) (c : Config) (h : c.Sound n)
    (hr : Config.raceFree lib ttl tasks n c schedule = true) :
    (Config.run lib ttl tasks c schedule).Sound n := by
  induction schedule generalizing c with
  | nil => exact h
  | cons i rest ih =>
    simp only [Config.raceFree, Bool.and_eq_true] at hr
    exact ih _ (Config.Sound.step lib ttl tasks n c i h hr.1) hr.2

theorem Config.raceFree_take (lib : Lib) (ttl : Duration) (tasks : Nat → Task) (n : Nat)
    (schedule : List Nat) (c : Config) (k : Nat)
    (hr : Config.raceFree lib ttl tasks n c schedule = true) :
    Config.raceFree lib ttl tasks n c (schedule.take k) = true := by
  induction schedule generalizing c k with
  | nil => simp [Config.raceFree]
  | cons i rest ih =>
    cases k with
    | zero => simp [Config.raceFree]
    | succ k =>
      simp only [Config.raceFree, Bool.and_eq_true, List.take_succ_cons] at hr ⊢
      exact ⟨hr.1, ih _ k hr.2⟩

/-! ## Claim on concurrent handlers -/

/-- C9, counterexample: three handlers on a cold cache. Handlers 0 and 1 both miss;
handler 0 stores its bytes, handler 1 stores its bytes and its timestamp, handler 0
stores its timestamp. The cache then holds the bytes of handler 1 next to the
timestamp of handler 0, and handler 2 finds that timestamp fresh and serves those
bytes: it observes a torn entry. Two more runs tear with one publish under way, on
the entry that handler 0 published: handler 1 stores its bytes between the two loads
of handler 2, or handler 2 loads the timestamp between the two stores of handler 1;
either way handler 2 serves the bytes of handler 1 on the timestamp of handler 0. -/
theorem torn_entry_observed :
    ((Config.run tableLib Minute tornTasks Config.cold tornSchedule).shared =
        { lastCached := some (101, 0), cachedResponse := some (payload60000, 1) } ∧
      ((Config.run tableLib Minute tornTasks Config.cold tornSchedule).locals 2).seenTime =
        some (101, 0) ∧
      ((Config.run tableLib Minute tornTasks Config.cold tornSchedule).locals 2).seenPayload =
        some (payload60000, 1) ∧
      answer ((Config.run tableLib Minute tornTasks Config.cold tornSchedule).locals 2).log =
        some ⟨200, payload60000⟩ ∧
      ((Config.run tableLib Minute tornTasks Config.cold tornSchedule).locals 2).torn = true) ∧
    (((Config.run tableLib Minute staleTasks Config.cold storeInsideReadSchedule).locals
        2).seenTime = some (0, 0) ∧
      ((Config.run tableLib Minute staleTasks Config.cold storeInsideReadSchedule).locals
        2).seenPayload = some (payload60000, 1) ∧
      ((Config.run tableLib Minute staleTasks Config.cold storeInsideReadSchedule).locals
        2).torn = true) ∧
    (((Config.run tableLib Minute staleTasks Config.cold loadInsidePublishSchedule).locals
        2).seenTime = some (0, 0) ∧
      ((Config.run tableLib Minute staleTasks Config.cold loadInsidePublishSchedule).locals
        2).seenPayload = some (payload60000, 1) ∧
      ((Config.run tableLib Minute staleTasks Config.cold loadInsidePublishSchedule).locals
        2).torn = true) := by
  decide

/-- C9 (amended): a publish is two atomic stores, the bytes and then the timestamp, and
a hit is two loads, the timestamp for the comparison and then the bytes. Take any
interleaving of the handlers `0 .. n-1`, started on a cold cache, in which no handler
stores its bytes while another handler is between its two stores or between its two
loads, and no handler loads the timestamp for the comparison while another handler
is between its two stores. Then at every point of the run no handler has observed a
torn entry, and whenever no handler is between its two stores the cache holds no
torn entry. -/
theorem race_free_handlers_see_whole_entries (lib : Lib) (ttl : Duration)
    (tasks : Nat → Task) (n : Nat) (schedule : List Nat)
    (h : Config.raceFree lib ttl tasks n Config.cold schedule = true) (k : Nat) :
    (∀ i, ((Config.run lib ttl tasks Config.cold (schedule.take k)).locals i).torn = false) ∧
      ((∀ i, ((Config.run lib ttl tasks Config.cold (schedule.take k)).locals i).pc.midPublish
          = false) →
        (Config.run lib ttl tasks Config.cold (schedule.take k)).shared.torn = false) := by
  have hs := Config.raceFree_sound lib ttl tasks n (schedule.take k) Config.cold
    (Config.Sound.cold n) (Config.raceFree_take lib ttl tasks n schedule Config.cold k h)
  exact ⟨hs.untorn, fun hq => Shared.whole_not_torn _ (hs.quiet hq)⟩

set_option maxRecDepth 100000 in
/-- C9 (amended), at a concrete input: handler 0 publishes; the hits of handlers 1 and 2
and the miss of handler 3 then run step by step in turn. The schedule is without a
race; after its first 19 steps, with the three handlers under way, and at its end,
no handler has observed a torn entry; handlers 1 and 2 served the bytes of handler 0,
and at the end the cache holds the bytes and the timestamp of handler 3. -/
theorem race_free_handlers_see_whole_entries_witness :
    Config.raceFree tableLib Minute sharedTasks 4 Config.cold sharedSchedule = true ∧
      (∀ i, ((Config.run tableLib Minute sharedTasks Config.cold
        (sharedSchedule.take 19)).locals i).torn = false) ∧
      (∀ i, ((Config.run tableLib Minute sharedTasks Config.cold
        (sharedSchedule.take 26)).locals i).torn = false) ∧
      ((Config.run tableLib Minute sharedTasks Config.cold sharedSchedule).locals 1).seenPayload =
        some (payload50000, 0) ∧
      ((Config.run tableLib Minute sharedTasks Config.cold sharedSchedule).locals 2).seenPayload =
        some (payload50000, 0) ∧
      (Config.run tableLib Minute sharedTasks Config.cold sharedSchedule).shared =
        { lastCached := some (101 + Minute, 3), cachedResponse := some (payload60000, 3) } :=
  ⟨by decide,
    (race_free_handlers_see_whole_entries tableLib Minute sharedTasks 4 sharedSchedule
      (by decide) 19).1,
    (race_free_handlers_see_whole_entries tableLib Minute sharedTasks 4 sharedSchedule
      (by decide) 26).1,
    by decide, by decide, by decide⟩

/-- When the handlers run one after the other, each from its start to its end, in any
order and with any surroundings, then at the end of the run no handler has observed
a torn entry and the cache holds none. -/
theorem serial_handlers_see_whole_entries (lib : Lib) (ttl : Duration) (tasks : Nat → Task)
    (order : List Nat) :
    (Config.run lib ttl tasks Config.cold (serialSchedule order)).shared.torn = false ∧
      ∀ i, ((Config.run lib ttl tasks Config.cold (serialSchedule order)).locals i).torn
        = false := by
  obtain ⟨h1, h2⟩ := run_serial_settled lib ttl tasks order Config.cold
    (Or.inl ⟨rfl, rfl⟩) (fun _ => Or.inl rfl)
  exact ⟨Shared.whole_not_torn _ h1, fun i => Local.settled_not_torn _ (h2 i)⟩

end LtpServer
